import Mathlib

/-!
Verification of the liturgical-calendar MCP server's normalization layer.

The embedding models the TypeScript sources:
  * `src/rules/dates.ts`      — `formatDate`, `validateYear`
  * `src/rules/filters.ts`    — `parseGradeFilter`
  * `src/formatters/calendar.ts` — `formatCalendarResponse`
  * `src/index.ts`            — `getLiturgicalEvents` normalization, tool dispatch

JavaScript runtime facts that the sources lean on are modelled explicitly:
  * dynamic values are an inductive `JSValue` (numbers are integral; the
    distinguished `vnan` constructor stands for `NaN`);
  * `Date` semantics follow ECMA-262: a time value is an integer count of
    milliseconds, valid iff its magnitude is at most 8.64e15; `toISOString`
    renders the proleptic-Gregorian UTC date, zero-padded to 4 digits for
    years 0..9999 and in the expanded `±YYYYYY` form otherwise; string
    parsing accepts the Date Time String Format.  The host timezone is
    taken to be UTC (the deployment default), so `getMonth` agrees with
    the UTC month;
  * `JSON.stringify` serialization is treated as glue: functions return
    the structured value that the source serializes.
-/

/-! ## JavaScript value model -/

/-- A JavaScript runtime value, as far as the sources observe it.  Numbers are
integral (all numbers appearing in the data are); `vnan` models `NaN`. -/
inductive JSValue where
  | vundefined
  | vnull
  | vbool (b : Bool)
  | vnum (n : Int)
  | vnan
  | vstr (s : String)
  | varr (elems : List JSValue)
  | vobj (fields : List (String × JSValue))

/-- JavaScript truthiness. -/
def truthy : JSValue → Bool
  | .vundefined => false
  | .vnull => false
  | .vnan => false
  | .vbool b => b
  | .vnum n => n != 0
  | .vstr s => s != ("")
  | .varr _ => true
  | .vobj _ => true

/-- Property access `v?.k`: `undefined` on `null`/`undefined`/primitives
without the property; first binding wins on objects. -/
def getProp (v : JSValue) (k : String) : JSValue :=
  match v with
  | .vobj fields =>
    match fields.lookup k with
    | some x => x
    | none => .vundefined
  | _ => .vundefined

/-- JS `a || b`. -/
def jsOr (a b : JSValue) : JSValue := if truthy a then a else b

/-- JS `a || null`. -/
def jsOrNull (a : JSValue) : JSValue := jsOr a .vnull

/-- JS `a ?? b`. -/
def jsNullishOr (a b : JSValue) : JSValue :=
  match a with
  | .vnull => b
  | .vundefined => b
  | _ => a

/-! ## Calendar arithmetic (ECMA-262 Date, proleptic Gregorian, UTC) -/

/-- Century index within a 400-year era, from the day-of-era. -/
def centOf (doe : Nat) : Nat := (4 * doe + 3) / 146097

/-- Day within the century. -/
def docOf (doe : Nat) : Nat := doe - 146097 * centOf doe / 4

/-- Year within the century (March-based). -/
def yicOf (doe : Nat) : Nat := (4 * docOf doe + 3) / 1461

/-- Day of the March-based year. -/
def doyOf (doe : Nat) : Nat := docOf doe - 1461 * yicOf doe / 4

/-- Year of the 400-year era (March-based), in `0..399`. -/
def yoeOf (doe : Nat) : Nat := 100 * centOf doe + yicOf doe

/-- March-based month index `0..11` (0 = March). -/
def mpOf (doe : Nat) : Nat := (5 * doyOf doe + 2) / 153

/-- Day of month `1..31`. -/
def dayOf (doe : Nat) : Nat := doyOf doe - (153 * mpOf doe + 2) / 5 + 1

/-- Civil month `1..12`. -/
def monthOf (doe : Nat) : Nat := if mpOf doe < 10 then mpOf doe + 3 else mpOf doe - 9

/-- The 400-year era of an epoch day. -/
def eraOfDays (z : Int) : Int := (z + 719468) / 146097

/-- Day-of-era of an epoch day, in `0..146096`. -/
def doeOfDays (z : Int) : Nat := (z + 719468 - eraOfDays z * 146097).toNat

/-- Civil year of an epoch day. -/
def yearOfDays (z : Int) : Int :=
  (yoeOf (doeOfDays z) : Int) + eraOfDays z * 400 +
    (if monthOf (doeOfDays z) ≤ 2 then 1 else 0)

/-- Proleptic-Gregorian `(year, month, day)` of the epoch day `z`
(days since 1970-01-01). -/
def civilFromDays (z : Int) : Int × Nat × Nat :=
  (yearOfDays z, monthOf (doeOfDays z), dayOf (doeOfDays z))

/-- Epoch day of a proleptic-Gregorian civil date. -/
def daysFromCivil (y : Int) (m d : Nat) : Int :=
  let ya := y - (if m ≤ 2 then 1 else 0)
  let era := ya / 400
  let yoe : Nat := (ya - era * 400).toNat
  let mp : Nat := if 2 < m then m - 3 else m + 9
  let doy : Nat := (153 * mp + 2) / 5 + d - 1
  let doe : Nat := yoe * 365 + yoe / 4 - yoe / 100 + doy
  era * 146097 + (doe : Int) - 719468

/-- Gregorian leap-year predicate. -/
def isLeapYear (y : Int) : Prop := y % 4 = 0 ∧ (y % 100 ≠ 0 ∨ y % 400 = 0)

instance (y : Int) : Decidable (isLeapYear y) := by
  unfold isLeapYear
  infer_instance

/-- Length of a month in a given civil year. -/
def daysInMonth (y : Int) (m : Nat) : Nat :=
  if m = 2 then (if isLeapYear y then 29 else 28)
  else if m = 4 ∨ m = 6 ∨ m = 9 ∨ m = 11 then 30
  else 31

/-- The UTC day (epoch day) containing the millisecond instant `ms`. -/
def utcDayOf (ms : Int) : Int := ms / 86400000

/-! ## ISO date rendering (`Date.prototype.toISOString`, date part) -/

/-- The decimal digit character for `n % 10`. -/
def digitChar10 (n : Nat) : Char := Char.ofNat (48 + n % 10)

/-- Two-digit zero-padded rendering of `n` (mod 100). -/
def pad2 (n : Nat) : List Char := [digitChar10 (n / 10), digitChar10 n]

/-- Four-digit zero-padded rendering of `n` (mod 10000). -/
def pad4 (n : Nat) : List Char :=
  [digitChar10 (n / 1000), digitChar10 (n / 100), digitChar10 (n / 10), digitChar10 n]

/-- Six-digit zero-padded rendering of `n` (mod 1000000). -/
def pad6 (n : Nat) : List Char :=
  [digitChar10 (n / 100000), digitChar10 (n / 10000), digitChar10 (n / 1000),
   digitChar10 (n / 100), digitChar10 (n / 10), digitChar10 n]

/-- The characters of the date component of `toISOString`: `YYYY-MM-DD` for
years 0..9999, expanded `+YYYYYY-MM-DD` / `-YYYYYY-MM-DD` outside. -/
def isoDateChars (y : Int) (m d : Nat) : List Char :=
  if 0 ≤ y ∧ y ≤ 9999 then pad4 y.toNat ++ '-' :: pad2 m ++ '-' :: pad2 d
  else if 9999 < y then '+' :: pad6 y.toNat ++ '-' :: pad2 m ++ '-' :: pad2 d
  else '-' :: pad6 (-y).toNat ++ '-' :: pad2 m ++ '-' :: pad2 d

/-- Model of `date.toISOString().split('T')[0]` for the valid time value `ms`. -/
def isoDateOfMs (ms : Int) : String :=
  String.mk (isoDateChars (civilFromDays (utcDayOf ms)).1
    (civilFromDays (utcDayOf ms)).2.1 (civilFromDays (utcDayOf ms)).2.2)

/-! ## Date string parsing (`new Date(string)`, Date Time String Format) -/

/-- Numeric value of a decimal digit character, if it is one. -/
def digitVal (c : Char) : Option Nat :=
  if 48 ≤ c.toNat ∧ c.toNat ≤ 57 then some (c.toNat - 48) else none

/-- Parse exactly two decimal digits. -/
def parseTwo : List Char → Option (Nat × List Char)
  | a :: b :: rest =>
    match digitVal a, digitVal b with
    | some x, some y => some (10 * x + y, rest)
    | _, _ => none
  | _ => none

/-- Parse exactly four decimal digits. -/
def parseFour (cs : List Char) : Option (Nat × List Char) :=
  match parseTwo cs with
  | some (hi, rest) =>
    match parseTwo rest with
    | some (lo, rest2) => some (100 * hi + lo, rest2)
    | none => none
  | none => none

/-- Parse exactly six decimal digits. -/
def parseSix (cs : List Char) : Option (Nat × List Char) :=
  match parseTwo cs with
  | some (hi, rest) =>
    match parseFour rest with
    | some (lo, rest2) => some (10000 * hi + lo, rest2)
    | none => none
  | none => none

/-- Parse the year field: four digits, or a sign with six digits
(`-000000` is rejected, per ECMA-262). -/
def parseYearField : List Char → Option (Int × List Char)
  | [] => none
  | c :: rest =>
    if c = '+' then
      match parseSix rest with
      | some (n, rest2) => some ((n : Int), rest2)
      | none => none
    else if c = '-' then
      match parseSix rest with
      | some (n, rest2) => if n = 0 then none else some (-(n : Int), rest2)
      | none => none
    else
      match parseFour (c :: rest) with
      | some (n, rest2) => some ((n : Int), rest2)
      | none => none

/-- Parse the optional `-MM` and `-DD` fields (defaulting to January 1). -/
def parseMonthDay : List Char → Option (Nat × Nat × List Char)
  | '-' :: rest =>
    match parseTwo rest with
    | some (m, rest2) =>
      match rest2 with
      | '-' :: rest3 =>
        match parseTwo rest3 with
        | some (d, rest4) => some (m, d, rest4)
        | none => none
      | _ => some (m, 1, rest2)
    | none => none
  | cs => some (1, 1, cs)

/-- Parse an `HH:MM` pair. -/
def parseHourMin (cs : List Char) : Option (Nat × Nat × List Char) :=
  match parseTwo cs with
  | some (h, rest) =>
    match rest with
    | ':' :: rest2 =>
      match parseTwo rest2 with
      | some (mi, rest3) => some (h, mi, rest3)
      | none => none
    | _ => none
  | none => none

/-- Parse the optional trailing UTC-offset designator, returning the offset
in milliseconds.  An absent designator means local time, and the host
timezone is modelled as UTC, so it contributes no offset. -/
def parseOffset : List Char → Option Int
  | [] => some 0
  | ['Z'] => some 0
  | '+' :: rest =>
    match parseHourMin rest with
    | some (h, mi, []) =>
      if h ≤ 23 ∧ mi ≤ 59 then some ((h : Int) * 3600000 + (mi : Int) * 60000) else none
    | _ => none
  | '-' :: rest =>
    match parseHourMin rest with
    | some (h, mi, []) =>
      if h ≤ 23 ∧ mi ≤ 59 then some (-((h : Int) * 3600000 + (mi : Int) * 60000)) else none
    | _ => none
  | _ => none

/-- Parse the optional `.SSS` milliseconds field followed by the offset,
returning `millis - offset`. -/
def parseMillisOffset : List Char → Option Int
  | '.' :: a :: b :: c :: rest =>
    match digitVal a, digitVal b, digitVal c with
    | some x, some y, some z =>
      match parseOffset rest with
      | some off => some ((100 * x + 10 * y + z : Int) - off)
      | none => none
    | _, _, _ => none
  | cs =>
    match parseOffset cs with
    | some off => some (-off)
    | none => none

/-- Parse the optional time-of-day part (after the date), returning its
signed millisecond contribution `time-of-day - offset`. -/
def parseTimePart : List Char → Option Int
  | [] => some 0
  | 'T' :: rest =>
    match parseHourMin rest with
    | some (h, mi, rest2) =>
      if 23 < h ∨ 59 < mi then none
      else
        match rest2 with
        | ':' :: rest3 =>
          match parseTwo rest3 with
          | some (s, rest4) =>
            if 59 < s then none
            else
              match parseMillisOffset rest4 with
              | some t =>
                some ((h : Int) * 3600000 + (mi : Int) * 60000 + (s : Int) * 1000 + t)
              | none => none
          | none => none
        | _ =>
          match parseMillisOffset rest2 with
          | some t => some ((h : Int) * 3600000 + (mi : Int) * 60000 + t)
          | none => none
    | none => none
  | _ => none

/-- Model of `Date.parse` on the Date Time String Format: returns the (unclipped)
time value in milliseconds, or `none` for a non-conforming string. -/
def parseDateChars (cs : List Char) : Option Int :=
  match parseYearField cs with
  | some (y, rest) =>
    match parseMonthDay rest with
    | some (m, d, rest2) =>
      if 1 ≤ m ∧ m ≤ 12 ∧ 1 ≤ d ∧ d ≤ daysInMonth y m then
        match parseTimePart rest2 with
        | some t => some (daysFromCivil y m d * 86400000 + t)
        | none => none
      else none
    | none => none
  | none => none

/-- A time value is valid iff its magnitude is at most 8.64e15 ms. -/
def clipTime (ms : Int) : Option Int :=
  if ms.natAbs ≤ 8640000000000000 then some ms else none

/-! ## `formatDate` (src/rules/dates.ts) -/

/-- Model of `String(v)` for the values that can reach `new Date(v)` here.  Arrays
stringify by comma-joining their elements (`null`/`undefined` elements
render empty), plain objects as `"[object Object]"`. -/
def isNullish : JSValue → Bool
  | .vnull => true
  | .vundefined => true
  | _ => false

/-- Model of `String(v)` continued: see `isNullish` for the array-element rule. -/
def jsToString (v : JSValue) : String :=
  match v with
  | .vundefined => ("undefined")
  | .vnull => ("null")
  | .vbool b => if b then ("true") else ("false")
  | .vnum n => toString n
  | .vnan => ("NaN")
  | .vstr s => s
  | .varr l => String.intercalate (",")
      (l.attach.map (fun p =>
        if isNullish p.1 then ("") else jsToString p.1))
  | .vobj _ => ("[object Object]")
decreasing_by
  have := List.sizeOf_lt_of_mem p.2
  simp only [JSValue.varr.sizeOf_spec]
  omega

/-- Model of `ToPrimitive(v)` as used by the `Date` constructor: primitives pass
through, arrays and plain objects convert via `toString`. -/
def toPrimitiveForDate (v : JSValue) : JSValue :=
  match v with
  | .varr l => .vstr (jsToString (.varr l))
  | .vobj f => .vstr (jsToString (.vobj f))
  | p => p

/-- The time value of `new Date(v)` for a primitive non-number `v`
(strings parse, booleans and `null` coerce through `ToNumber`). -/
def dateValueOfPrim (v : JSValue) : Option Int :=
  match v with
  | .vstr s => (parseDateChars s.toList).bind clipTime
  | .vbool b => some (if b then 1 else 0)
  | .vnull => some 0
  | _ => none

/-- The time value of the `Date` built by `formatDate`'s constructor call:
numbers are epoch seconds scaled by 1000, anything else goes through
`new Date(value)`. -/
def formatDateTimeValue (v : JSValue) : Option Int :=
  match v with
  | .vnum n => clipTime (n * 1000)
  | _ => dateValueOfPrim (toPrimitiveForDate v)

/-- The function `formatDate` (src/rules/dates.ts): falsy input short-circuits to `null`;
otherwise build the `Date`, return `null` when invalid, else the
`YYYY-MM-DD` part of `toISOString()`. -/
def formatDate (v : JSValue) : Option String :=
  if truthy v = false then none
  else
    match formatDateTimeValue v with
    | some ms => some (isoDateOfMs ms)
    | none => none

/-! ## Filter parsing (src/rules/filters.ts) and `validateYear` -/

/-- The whitespace characters recognized by `trim` / `parseInt`. -/
def jsSpace (c : Char) : Bool :=
  c = ' ' || c = '\t' || c = '\n' || c = '\r' || c = '\x0b' || c = '\x0c'

/-- Model of `String.prototype.trim`. -/
def trimChars (cs : List Char) : List Char :=
  ((cs.dropWhile jsSpace).reverse.dropWhile jsSpace).reverse

/-- Leading decimal-digit run value, `none` when there are no digits. -/
def digitsValue (cs : List Char) : Option Nat :=
  match cs.takeWhile (fun c => 48 ≤ c.toNat && c.toNat ≤ 57) with
  | [] => none
  | ds => some (ds.foldl (fun a c => 10 * a + (c.toNat - 48)) 0)

/-- Model of `parseInt(s, 10)`: skip leading whitespace, optional sign, then the
leading digit run; `NaN` (here `none`) when no digits follow. -/
def parseIntChars (cs : List Char) : Option Int :=
  match cs.dropWhile jsSpace with
  | '-' :: rest => (digitsValue rest).map (fun n => -(n : Int))
  | '+' :: rest => (digitsValue rest).map (fun n => (n : Int))
  | cs2 => (digitsValue cs2).map (fun n => (n : Int))

/-- The `string | number` argument of `parseGradeFilter`. -/
inductive GradeArg where
  | str (s : String)
  | num (n : Int)

/-- Falsiness of the grade-filter argument (`""`, `0`). -/
def gradeArgFalsy : GradeArg → Bool
  | .str s => s == ("")
  | .num n => n == 0

/-- Model of `String(gradeFilter)` when the argument is a number. -/
def gradeArgString : GradeArg → String
  | .str s => s
  | .num n => toString n

/-- Model of `split(',')` on a character list. -/
def splitComma : List Char → List (List Char)
  | [] => [[]]
  | c :: rest =>
    match splitComma rest with
    | [] => [[c]]
    | g :: gs => if c = ',' then [] :: g :: gs else (c :: g) :: gs

/-- The keep-step of the grade filter: `!isNaN(g) && g >= 0 && g <= 7`. -/
def keepGrade : Option Int → Option Int
  | some v => if 0 ≤ v ∧ v ≤ 7 then some v else none
  | none => none

/-- The kept grades of a grade-filter string: split on commas, trim, parse
each piece as an integer, keep the values in `[0, 7]` in order. -/
def keptGrades (s : String) : List Int :=
  ((splitComma s.toList).map (fun g => parseIntChars (trimChars g))).filterMap keepGrade

/-- The function `parseGradeFilter` (src/rules/filters.ts). -/
def parseGradeFilter (input : Option GradeArg) : Option (List Int) :=
  match input with
  | none => none
  | some gi =>
    if gradeArgFalsy gi then none
    else
      let grades := keptGrades (gradeArgString gi)
      if 0 < grades.length then some grades else none

/-- The string `validateYear` actually parses: the trimmed input, or the
rendering of the current year when the input is absent or trims to empty. -/
def effectiveYearString (currentYear : Int) (year : Option String) : String :=
  match year with
  | none => toString currentYear
  | some s =>
    if String.mk (trimChars s.toList) = ("") then toString currentYear
    else String.mk (trimChars s.toList)

/-- The function `validateYear` (src/rules/dates.ts), parametrized by the current year
(`new Date().getFullYear()`). -/
def validateYear (currentYear : Int) (year : Option String) : Except String Int :=
  match parseIntChars (effectiveYearString currentYear year).toList with
  | none => .error ("Year must be between 1970 and 9999")
  | some y =>
    if y < 1970 ∨ 9999 < y then .error ("Year must be between 1970 and 9999")
    else .ok y

/-! ## Calendar response formatter (src/formatters/calendar.ts) -/

/-- The table `GRADE_MAP` (src/constants.ts): liturgical grade names for 0..7. -/
def GRADE_MAP (n : Int) : Option String :=
  match n with
  | 0 => some ("Weekday")
  | 1 => some ("Commemoration")
  | 2 => some ("Optional Memorial")
  | 3 => some ("Memorial")
  | 4 => some ("Feast")
  | 5 => some ("Feast of the Lord")
  | 6 => some ("Solemnity")
  | 7 => some ("Higher Solemnity")
  | _ => none

/-- The Grade Table of the specification: total on integers, naming grades
0..7 and degrading to `"Unknown"` outside that range. -/
def gradeTableName (n : Int) : String := (GRADE_MAP n).getD ("Unknown")

/-- Lookup `GRADE_MAP[v]` for a dynamic subscript: numeric keys hit the table via
their decimal rendering, as do the digit strings `"0"`..`"7"`. -/
def gradeMapLookup (v : JSValue) : Option String :=
  match v with
  | .vnum n => GRADE_MAP n
  | .vstr s =>
    if s = ("0") then GRADE_MAP 0
    else if s = ("1") then GRADE_MAP 1
    else if s = ("2") then GRADE_MAP 2
    else if s = ("3") then GRADE_MAP 3
    else if s = ("4") then GRADE_MAP 4
    else if s = ("5") then GRADE_MAP 5
    else if s = ("6") then GRADE_MAP 6
    else if s = ("7") then GRADE_MAP 7
    else none
  | _ => none

/-- The `CalendarEvent` shape produced by the formatter's mapping step. -/
structure CalendarEvent where
  name : JSValue
  date : Option String
  grade : JSValue
  grade_name : String
  color : JSValue
  common : JSValue
  liturgical_year : JSValue

/-- The event list drawn from `data.litcal`: arrays are used directly,
otherwise `Object.values` (insertion order; the upstream event keys are
non-index strings, so no index reordering applies). -/
def litcalEvents : JSValue → List JSValue
  | .varr l => l
  | .vobj fields => fields.map (fun kv => kv.2)
  | .vstr s => s.toList.map (fun c => .vstr (String.mk [c]))
  | _ => []

/-- Mapping one raw event to a `CalendarEvent`.  Property access on
`null`/`undefined` throws a `TypeError`, which the formatter's outer
handler converts to an error result; everything else is total. -/
def mapEvent (e : JSValue) : Except String CalendarEvent :=
  match e with
  | .vnull => .error ("Cannot read properties of null (reading 'name')")
  | .vundefined => .error ("Cannot read properties of undefined (reading 'name')")
  | _ => .ok
    { name := jsOr (getProp e ("name")) (.vstr ("Unknown"))
      date := formatDate (getProp e ("date"))
      grade := getProp e ("grade")
      grade_name := (gradeMapLookup (getProp e ("grade"))).getD ("Unknown")
      color := jsOr (getProp e ("color")) (.varr [])
      common := jsOr (getProp e ("common")) (.varr [])
      liturgical_year := jsOr (getProp e ("liturgical_year")) .vnull }

/-- Model of `new Date(e.date).getMonth() + 1` under a UTC host timezone, `none`
when the date string does not parse. -/
def jsMonthOfDateString (s : String) : Option Nat :=
  match (parseDateChars s.toList).bind clipTime with
  | some ms => some (civilFromDays (utcDayOf ms)).2.1
  | none => none

/-- The month-filter predicate of the formatter: a falsy (`null` or empty)
date never matches; otherwise the re-parsed month must equal the filter. -/
def monthMatches (m : Int) (e : CalendarEvent) : Bool :=
  match e.date with
  | none => false
  | some s =>
    if s = ("") then false
    else
      match jsMonthOfDateString s with
      | some em => (em : Int) == m
      | none => false

/-- The grade-filter predicate: `gradeFilter.includes(e.grade)` under strict
equality, so only numeric grades can match. -/
def gradeMatches (g : List Int) (e : CalendarEvent) : Bool :=
  match e.grade with
  | .vnum n => g.contains n
  | _ => false

/-- Ordinal (code-unit) comparison of character lists: the order the
claim's wording ascribes to the comparator. -/
def charListLE : List Char → List Char → Bool
  | [], _ => true
  | _ :: _, [] => false
  | a :: as, b :: bs =>
    if a.toNat < b.toNat then true
    else if b.toNat < a.toNat then false
    else charListLE as bs

/-- Ordinal string comparison, the claim's reading of the comparator. -/
def strLE (a b : String) : Bool := charListLE a.toList b.toList

/-- The ICU root-collation primary weight of the characters a `formatDate`
result can contain (digits, `'-'`, and the expanded-year sign `'+'`):
under the default collation used by `localeCompare`, the hyphen (dash
punctuation) sorts before the plus sign (a symbol), which sorts before
the digits -- whereas in code units `'+'` (0x2B) precedes `'-'` (0x2D).
Characters other than these keep their relative code-unit order. -/
def collWeight (c : Char) : Nat :=
  if c = '-' then 0 else if c = '+' then 1 else 2 + c.toNat

/-- Lexicographic comparison of character lists by collation weight. -/
def charListCollLE : List Char → List Char → Bool
  | [], _ => true
  | _ :: _, [] => false
  | a :: as, b :: bs =>
    if collWeight a < collWeight b then true
    else if collWeight b < collWeight a then false
    else charListCollLE as bs

/-- Model of `a.localeCompare(b) <= 0` under the host's default (ICU root)
collation, restricted to the character set of rendered dates. -/
def strCollLE (a b : String) : Bool := charListCollLE a.toList b.toList

/-- The sort comparator of the formatter
(`a.date.localeCompare(b.date)`, src/formatters/calendar.ts line 92), as a
relation: events with a `null` date come after all dated events and tie
with each other; dated events compare by the default-collation order of
their date strings. -/
def eventLE (a b : CalendarEvent) : Prop :=
  match a.date, b.date with
  | none, none => True
  | none, some _ => False
  | some _, none => True
  | some x, some y => strCollLE x y = true

instance : DecidableRel eventLE := fun a b => by
  unfold eventLE
  match a.date, b.date with
  | none, none => exact inferInstance
  | none, some _ => exact inferInstance
  | some _, none => exact inferInstance
  | some _, some _ => exact inferInstance

/-- The relation the claim's words assert for the output: ordinal
(code-unit) comparison of the date strings, nulls last. -/
def ordinalEventLE (a b : CalendarEvent) : Prop :=
  match a.date, b.date with
  | none, none => True
  | none, some _ => False
  | some _, none => True
  | some x, some y => strLE x y = true

instance : DecidableRel ordinalEventLE := fun a b => by
  unfold ordinalEventLE
  match a.date, b.date with
  | none, none => exact inferInstance
  | none, some _ => exact inferInstance
  | some _, none => exact inferInstance
  | some _, some _ => exact inferInstance

/-- A plain date character: a decimal digit or the hyphen.  Supported-range
(`YYYY-MM-DD`) renderings consist of these only; expanded-year renderings
add a leading sign. -/
def dateChar (c : Char) : Bool := decide (c = '-' ∨ (48 ≤ c.toNat ∧ c.toNat ≤ 57))

/-- An event whose date, if present, is made of plain date characters. -/
def eventDatePlain (e : CalendarEvent) : Bool :=
  match e.date with
  | none => true
  | some s => s.toList.all dateChar

/-- Model of `Array.prototype.sort` with the date comparator: a stable sort by a
total preorder, modelled by insertion sort (stable sorts by a total
preorder agree on their output). -/
def sortEvents (l : List CalendarEvent) : List CalendarEvent :=
  l.insertionSort eventLE

/-- The filters echoed in the metadata block. -/
structure FiltersApplied where
  month : Option Int
  grades : Option (List Int)

/-- The metadata block of a formatted calendar response. -/
structure CalendarMetadata where
  locale : JSValue
  national_calendar : JSValue
  diocesan_calendar : JSValue
  year : JSValue
  total_events : Nat
  filters_applied : FiltersApplied

/-- A formatted calendar response. -/
structure CalendarResponse where
  metadata : CalendarMetadata
  events : List CalendarEvent

/-- The result of the formatter before `JSON.stringify`: either an
`{error: message}` object or a structured response. -/
inductive FmtResult where
  | err (msg : String)
  | ok (resp : CalendarResponse)

/-- The function `formatCalendarResponse` (src/formatters/calendar.ts).  `monthFilter`
and `gradeFilter` collapse JS `null`/`undefined` into `none`. -/
def formatCalendarResponse (data : JSValue) (monthFilter : Option Int)
    (gradeFilter : Option (List Int)) : FmtResult :=
  if truthy (getProp data ("litcal")) = false then
    .err ("No calendar data available")
  else
    match (litcalEvents (getProp data ("litcal"))).mapM mapEvent with
    | .error msg => .err (("Error formatting calendar: ") ++ msg)
    | .ok mapped =>
      let afterMonth :=
        match monthFilter with
        | some m => mapped.filter (fun e => monthMatches m e)
        | none => mapped
      let afterGrade :=
        match gradeFilter with
        | some g => if 0 < g.length then afterMonth.filter (fun e => gradeMatches g e)
                    else afterMonth
        | none => afterMonth
      let sorted := sortEvents afterGrade
      .ok
        { metadata :=
          { locale := jsOrNull (getProp (getProp data ("settings")) ("locale"))
            national_calendar :=
              jsOrNull (getProp (getProp data ("settings")) ("national_calendar"))
            diocesan_calendar :=
              jsOrNull (getProp (getProp data ("settings")) ("diocesan_calendar"))
            year := jsOrNull (getProp (getProp data ("settings")) ("year"))
            total_events := sorted.length
            filters_applied :=
            { month :=
                match monthFilter with
                | some m => if m = 0 then none else some m
                | none => none
              grades := gradeFilter } }
          events := sorted }

/-! ## `get_liturgical_events` normalization (src/index.ts) -/

/-- One record of the `get_liturgical_events` output. -/
structure EventRecord where
  event_key : String
  name : JSValue
  grade : JSValue
  grade_name : JSValue
  color : JSValue
  common : JSValue
  date : JSValue
  liturgical_year : JSValue

/-- Building one record from a `litcal_events` entry (src/index.ts
lines 102-111): `grade` uses `?? null`, `grade_name` is looked up only when
`val?.grade !== undefined` (yielding JS `undefined` when the grade has no
`GRADE_MAP` entry), everything else uses `|| null`. -/
def mkEventRecord (key : String) (val : JSValue) : EventRecord :=
  { event_key := key
    name := jsOrNull (getProp val ("name"))
    grade := jsNullishOr (getProp val ("grade")) .vnull
    grade_name :=
      match getProp val ("grade") with
      | .vundefined => .vnull
      | g =>
        match gradeMapLookup g with
        | some s => .vstr s
        | none => .vundefined
    color := jsOrNull (getProp val ("color"))
    common := jsOrNull (getProp val ("common"))
    date := jsOrNull (getProp val ("date"))
    liturgical_year := jsOrNull (getProp val ("liturgical_year")) }

/-- Model of `Object.entries` of the `litcal_events` value. -/
def litcalEntries : JSValue → List (String × JSValue)
  | .vobj fields => fields
  | .varr l => l.enum.map (fun iv => (toString iv.1, iv.2))
  | .vstr s => s.toList.enum.map (fun ic => (toString ic.1, .vstr (String.mk [ic.2])))
  | _ => []

/-- The grade filter of `get_liturgical_events`:
`e.grade !== null && grades.includes(e.grade)`. -/
def recGradeMatches (g : List Int) (r : EventRecord) : Bool :=
  match r.grade with
  | .vnum n => g.contains n
  | _ => false

/-- The `get_liturgical_events` response body. -/
structure EventsResponse where
  calendar_type : String
  nation : JSValue
  diocese : JSValue
  grades_applied : Option (List Int)
  total_events : Nat
  events : List EventRecord

/-- The structured result of the `get_liturgical_events` normalizer. -/
inductive EventsResult where
  | err (msg : String)
  | ok (resp : EventsResponse)

/-- The normalization performed by `getLiturgicalEvents` (src/index.ts) on a
fetched payload, after the grade filter string has been parsed. -/
def getLiturgicalEventsResult (data : JSValue) (calendarType : String)
    (nation diocese : Option String) (grades : Option (List Int)) : EventsResult :=
  if truthy (getProp data ("litcal_events")) = false then
    .err ("No events data available")
  else
    let recs := (litcalEntries (getProp data ("litcal_events"))).map
      (fun kv => mkEventRecord kv.1 kv.2)
    let filtered :=
      match grades with
      | some g => if 0 < g.length then recs.filter (fun r => recGradeMatches g r) else recs
      | none => recs
    .ok
      { calendar_type := calendarType
        nation := match nation with | some n => .vstr n | none => .vnull
        diocese := match diocese with | some d => .vstr d | none => .vnull
        grades_applied := grades
        total_events := filtered.length
        events := filtered }

/-! ## Tool dispatch (src/index.ts, CallToolRequestSchema handler) -/

/-- The five registered tool names. -/
def knownToolNames : List String :=
  [("get_general_calendar"), ("get_national_calendar"), ("get_diocesan_calendar"),
   ("list_available_calendars"), ("get_liturgical_events")]

/-- The own property names of `Object.prototype`.  The `handlers` object
is a plain object literal, so it inherits all of them through its
prototype chain, and reading any of them through `handlers[name]` yields
a truthy value: a function for the first eleven, and `Object.prototype`
itself for the `__proto__` accessor. -/
def objectProtoProps : List String :=
  [("constructor"), ("hasOwnProperty"), ("isPrototypeOf"),
   ("propertyIsEnumerable"), ("toLocaleString"), ("toString"), ("valueOf"),
   ("__defineGetter__"), ("__defineSetter__"), ("__lookupGetter__"),
   ("__lookupSetter__"), ("__proto__")]

/-- The `text` field of a dispatcher reply.  The registered handlers and
the unknown-tool branch produce strings; a call resolved through the
prototype chain can also produce a non-string value, including the
`handlers` record itself (a record of closures, carried here as a tag
because closures are not data). -/
inductive ReplyText where
  | str (s : String)
  | value (v : JSValue)
  | handlersObject

/-- A dispatcher reply: the text payload and the `isError` flag. -/
structure ToolReply where
  text : ReplyText
  isError : Bool

/-- The result of `await handlers[name]()` when `name` resolves to an
inherited `Object.prototype` member, called with `this = handlers` and no
arguments (src/index.ts line 217): `toString` and `toLocaleString` return
the string `[object Object]`; `hasOwnProperty`, `isPrototypeOf` and
`propertyIsEnumerable` return `false`; `constructor` builds a fresh empty
object; `__lookupGetter__` and `__lookupSetter__` return `undefined`;
`valueOf` returns the `handlers` record itself; `__defineGetter__` and
`__defineSetter__` throw a `TypeError` (their getter/setter argument is
`undefined`), and `__proto__` reads as `Object.prototype`, which is not
callable, so that call throws as well. -/
def protoCallOutcome (name : String) : Except String ReplyText :=
  if name = ("toString") ∨ name = ("toLocaleString") then
    .ok (.str ("[object Object]"))
  else if name = ("hasOwnProperty") ∨ name = ("isPrototypeOf") ∨
      name = ("propertyIsEnumerable") then
    .ok (.value (.vbool false))
  else if name = ("constructor") then .ok (.value (.vobj []))
  else if name = ("__lookupGetter__") ∨ name = ("__lookupSetter__") then
    .ok (.value .vundefined)
  else if name = ("valueOf") then .ok .handlersObject
  else if name = ("__defineGetter__") then .error ("Getter must be a function")
  else if name = ("__defineSetter__") then .error ("Setter must be a function")
  else .error ("handlers[name] is not a function")

/-- The `CallToolRequestSchema` handler (src/index.ts lines 216-224).
`handlers[name]` is truthy when `name` is a registered tool or any
inherited `Object.prototype` property, so `isError = !handlers[name]` is
`false` on both.  A registered tool resolves with its handler's string
(`impl name` -- the five handlers catch their own errors and resolve with
`{error: message}` payloads rather than rejecting); an inherited member is
called instead, and if that call throws, the exception lands in the outer
`catch`, which reports an `Error executing` payload with
`isError = true`; any other name takes the `Unknown tool` branch with
`isError = true`. -/
def dispatchTool (name : String) (impl : String → String) : ToolReply :=
  if knownToolNames.contains name then
    { text := .str (impl name), isError := false }
  else if objectProtoProps.contains name then
    match protoCallOutcome name with
    | .ok t => { text := t, isError := false }
    | .error msg =>
      { text := .str (("\x7b\"error\":\"Error executing ") ++ name ++ (": ") ++ msg
          ++ ("\"\x7d")),
        isError := true }
  else
    { text := .str (("\x7b\"error\":\"Unknown tool: ") ++ name ++ ("\"\x7d")),
      isError := true }

/-! ## Result projections used to state concrete end-to-end facts -/

/-- The event list of a formatter result, when it is not an error. -/
def fmtEvents : FmtResult → Option (List CalendarEvent)
  | .ok r => some r.events
  | .err _ => none

/-- The `total_events` metadata of a formatter result. -/
def fmtTotalEvents : FmtResult → Option Nat
  | .ok r => some r.metadata.total_events
  | .err _ => none

/-- The dates of the events of a formatter result. -/
def fmtEventDates (r : FmtResult) : Option (List (Option String)) :=
  (fmtEvents r).map (fun l => l.map (fun e => e.date))

/-- The grades of the events of a formatter result. -/
def fmtEventGrades (r : FmtResult) : Option (List JSValue) :=
  (fmtEvents r).map (fun l => l.map (fun e => e.grade))

/-- The record list of an events result, when it is not an error. -/
def evRecords : EventsResult → Option (List EventRecord)
  | .ok r => some r.events
  | .err _ => none

/-- The `grade_name` fields of an events result. -/
def evGradeNames (r : EventsResult) : Option (List JSValue) :=
  (evRecords r).map (fun l => l.map (fun e => e.grade_name))


/-! ## Correctness of the Gregorian conversion -/

set_option maxHeartbeats 1000000 in
/-- Correctness of the century-decomposed Gregorian conversion within one
400-year era: bounds, the month/day decoding facts, and the inverse
day-of-era equation. -/
theorem gregorianCore (doe cent doc yic doy yoe mp d m : Nat)
    (hdoe : doe ≤ 146096)
    (hcent : cent = (4 * doe + 3) / 146097)
    (hdoc : doc = doe - 146097 * cent / 4)
    (hyic : yic = (4 * doc + 3) / 1461)
    (hdoy : doy = doc - 1461 * yic / 4)
    (hyoe : yoe = 100 * cent + yic)
    (hmp : mp = (5 * doy + 2) / 153)
    (hd : d = doy - (153 * mp + 2) / 5 + 1)
    (hm : m = if mp < 10 then mp + 3 else mp - 9) :
    yoe ≤ 399 ∧ 1 ≤ m ∧ m ≤ 12 ∧ 1 ≤ d ∧ d ≤ 31 ∧
    (2 < m → m - 3 = mp) ∧ (m ≤ 2 → m + 9 = mp) ∧
    (153 * mp + 2) / 5 + d - 1 = doy ∧
    doy ≤ 365 ∧ (306 ≤ doy ↔ m ≤ 2) ∧
    365 * yoe + yoe / 4 - yoe / 100 + doy = doe ∧
    (m = 2 → d ≤ 29) ∧
    (m = 2 → ¬((yoe + 1) % 4 = 0 ∧ ((yoe + 1) % 100 ≠ 0 ∨ (yoe + 1) % 400 = 0)) → d ≤ 28) ∧
    ((m = 4 ∨ m = 6 ∨ m = 9 ∨ m = 11) → d ≤ 30) := by
  have hcent3 : cent ≤ 3 := by omega
  have hq : 146097 * cent / 4 = 36524 * cent := by omega
  rw [hq] at hdoc
  have hdoc0 : 36524 * cent ≤ doe ∧ doc ≤ 36524 := by omega
  have hyic99 : yic ≤ 99 := by omega
  have hg : 1461 * yic / 4 = 365 * yic + yic / 4 := by omega
  rw [hg] at hdoy
  have hdoy0 : 365 * yic + yic / 4 ≤ doc ∧ doy ≤ 365 := by omega
  have h365 : doy = 365 → yic % 4 = 3 ∧ (yic = 99 → cent = 3) := by omega
  have hyoe4 : yoe / 4 = 25 * cent + yic / 4 := by omega
  have hyoe100 : yoe / 100 = cent := by omega
  have hmp1 : 153 * mp ≤ 5 * doy + 2 ∧ 5 * doy + 2 ≤ 153 * mp + 152 := by
    subst hmp
    omega
  have hq5 : 5 * ((153 * mp + 2) / 5) ≤ 153 * mp + 2 ∧
      153 * mp + 2 ≤ 5 * ((153 * mp + 2) / 5) + 4 := by omega
  have hq5' : (153 * mp + 2) / 5 ≤ doy := by omega
  have hm4 : (yoe + 1) % 4 = (yic + 1) % 4 := by omega
  have hm100 : (yoe + 1) % 100 = (yic + 1) % 100 := by omega
  have hy399 : yoe ≤ 399 := by omega
  have hm400 : (yoe + 1) % 400 = yoe + 1 - (if yoe = 399 then 400 else 0) := by
    clear * - hy399
    split <;> omega
  clear hcent hyic hmp
  have hmp11 : mp ≤ 11 := by
    clear * - hmp1 hdoy0
    omega
  have hm2 : (mp < 10 ∧ m = mp + 3) ∨ (10 ≤ mp ∧ m = mp - 9) := by
    by_cases hsplit : mp < 10
    · rw [if_pos hsplit] at hm
      exact Or.inl ⟨hsplit, hm⟩
    · rw [if_neg hsplit] at hm
      exact Or.inr ⟨Nat.le_of_not_lt hsplit, hm⟩
  clear hm
  refine ⟨?_, ?_, ?_, ?_, ?_, ?_, ?_, ?_, ?_, ?_, ?_, ?_, ?_, ?_⟩
  · clear * - hyoe hcent3 hyic99
    omega
  · clear * - hm2 hmp11
    omega
  · clear * - hm2 hmp11
    omega
  · clear * - hd hq5'
    omega
  · clear * - hd hq5 hq5' hmp1 hmp11 hdoy0
    omega
  · clear * - hm2 hmp11
    omega
  · clear * - hm2 hmp11
    omega
  · clear * - hd hq5'
    omega
  · clear * - hdoy0
    omega
  · clear * - hmp1 hm2 hmp11
    omega
  · clear * - hdoy hdoc hyoe hyoe4 hyoe100 hdoy0 hdoc0 hcent3 hyic99
    omega
  · clear * - hm2 hmp11 hd hq5 hq5' hmp1 hdoy0
    omega
  · clear * - hm2 hmp11 hd hq5 hq5' hmp1 hdoy0 h365 hm4 hm100 hm400 hy399 hyoe hcent3 hyic99
    omega
  · clear * - hm2 hmp11 hd hq5 hq5' hmp1 hdoy0
    omega

/-- The decoding facts specialized to the day-of-era field functions. -/
theorem civilParts (doe : Nat) (hdoe : doe ≤ 146096) :
    yoeOf doe ≤ 399 ∧ 1 ≤ monthOf doe ∧ monthOf doe ≤ 12 ∧ 1 ≤ dayOf doe ∧ dayOf doe ≤ 31 ∧
    (2 < monthOf doe → monthOf doe - 3 = mpOf doe) ∧
    (monthOf doe ≤ 2 → monthOf doe + 9 = mpOf doe) ∧
    (153 * mpOf doe + 2) / 5 + dayOf doe - 1 = doyOf doe ∧
    doyOf doe ≤ 365 ∧ (306 ≤ doyOf doe ↔ monthOf doe ≤ 2) ∧
    365 * yoeOf doe + yoeOf doe / 4 - yoeOf doe / 100 + doyOf doe = doe ∧
    (monthOf doe = 2 → dayOf doe ≤ 29) ∧
    (monthOf doe = 2 →
      ¬((yoeOf doe + 1) % 4 = 0 ∧ ((yoeOf doe + 1) % 100 ≠ 0 ∨ (yoeOf doe + 1) % 400 = 0)) →
      dayOf doe ≤ 28) ∧
    ((monthOf doe = 4 ∨ monthOf doe = 6 ∨ monthOf doe = 9 ∨ monthOf doe = 11) →
      dayOf doe ≤ 30) :=
  gregorianCore doe (centOf doe) (docOf doe) (yicOf doe) (doyOf doe) (yoeOf doe)
    (mpOf doe) (dayOf doe) (monthOf doe) hdoe rfl rfl rfl rfl rfl rfl rfl rfl

/-- The Gregorian leap rule only depends on the year modulo 400. -/
theorem isLeapYear_shift (y era : Int) (n : Nat) (h : y = era * 400 + (n : Int)) :
    isLeapYear y ↔ (n % 4 = 0 ∧ (n % 100 ≠ 0 ∨ n % 400 = 0)) := by
  unfold isLeapYear
  omega

set_option maxHeartbeats 1000000 in
/-- Forward correctness of the epoch-day decomposition on the supported
range (1970-01-01 to 9999-12-31): the decoded civil date is in range,
valid for its month, and maps back to the same epoch day. -/
theorem civilFromDays_correct (z : Int) (h0 : 0 ≤ z) (h1 : z ≤ 2932896) :
    1970 ≤ (civilFromDays z).1 ∧ (civilFromDays z).1 ≤ 9999 ∧
    1 ≤ (civilFromDays z).2.1 ∧ (civilFromDays z).2.1 ≤ 12 ∧
    1 ≤ (civilFromDays z).2.2 ∧ (civilFromDays z).2.2 ≤ 31 ∧
    (civilFromDays z).2.2 ≤ daysInMonth (civilFromDays z).1 (civilFromDays z).2.1 ∧
    daysFromCivil (civilFromDays z).1 (civilFromDays z).2.1 (civilFromDays z).2.2 = z := by
  have hdoeI : (doeOfDays z : Int) = z + 719468 - eraOfDays z * 146097 := by
    unfold doeOfDays eraOfDays
    omega
  have hdoe : doeOfDays z ≤ 146096 := by
    unfold doeOfDays eraOfDays
    omega
  have hera : 4 ≤ eraOfDays z ∧ eraOfDays z ≤ 24 := by
    unfold eraOfDays
    omega
  obtain ⟨c1, c2, c3, c4, c5, c6, c7, c8, c9, c10, c11, c12, c13, c14⟩ :=
    civilParts (doeOfDays z) hdoe
  simp only [civilFromDays]
  by_cases hM2 : monthOf (doeOfDays z) ≤ 2
  · have hadj : yearOfDays z = (yoeOf (doeOfDays z) : Int) + eraOfDays z * 400 + 1 := by
      unfold yearOfDays
      rw [if_pos hM2]
    have hdoy306 : 306 ≤ doyOf (doeOfDays z) := c10.mpr hM2
    have hleap : isLeapYear (yearOfDays z) ↔
        ((yoeOf (doeOfDays z) + 1) % 4 = 0 ∧
          ((yoeOf (doeOfDays z) + 1) % 100 ≠ 0 ∨ (yoeOf (doeOfDays z) + 1) % 400 = 0)) := by
      refine isLeapYear_shift _ (eraOfDays z) (yoeOf (doeOfDays z) + 1) ?_
      rw [hadj]
      push_cast
      ring
    refine ⟨?_, ?_, c2, c3, c4, c5, ?_, ?_⟩
    · rw [hadj]
      clear * - hdoeI hdoe hera c1 c9 c11 hdoy306 h0 h1
      omega
    · rw [hadj]
      clear * - hdoeI hdoe hera c1 c9 c11 hdoy306 h0 h1
      omega
    · have hMeq : monthOf (doeOfDays z) = 1 ∨ monthOf (doeOfDays z) = 2 := by omega
      rcases hMeq with hMeq | hMeq
      · rw [hMeq]
        unfold daysInMonth
        rw [if_neg (by omega : ¬ (1 : Nat) = 2), if_neg (by omega)]
        exact c5
      · rw [hMeq]
        unfold daysInMonth
        rw [if_pos rfl]
        by_cases hL : isLeapYear (yearOfDays z)
        · rw [if_pos hL]
          rw [hMeq] at c12
          exact c12 rfl
        · rw [if_neg hL]
          rw [hMeq] at c13
          exact c13 rfl (fun hc => hL (hleap.mpr hc))
    · rw [hadj]
      simp only [daysFromCivil]
      rw [if_pos hM2, if_neg (by omega : ¬ 2 < monthOf (doeOfDays z)), c7 hM2, c8]
      have hera2 : ((yoeOf (doeOfDays z) : Int) + eraOfDays z * 400 + 1 - 1) / 400 =
          eraOfDays z := by
        clear * - c1 hera
        omega
      rw [hera2]
      have hyoe2 : ((yoeOf (doeOfDays z) : Int) + eraOfDays z * 400 + 1 - 1 -
          eraOfDays z * 400).toNat = yoeOf (doeOfDays z) := by
        clear * - c1 hera
        omega
      rw [hyoe2]
      clear * - hdoeI hdoe hera c1 c11 h0 h1
      omega
  · have hadj : yearOfDays z = (yoeOf (doeOfDays z) : Int) + eraOfDays z * 400 := by
      unfold yearOfDays
      rw [if_neg hM2]
      ring
    have hdoy305 : ¬ 306 ≤ doyOf (doeOfDays z) := fun hc => hM2 (c10.mp hc)
    refine ⟨?_, ?_, c2, c3, c4, c5, ?_, ?_⟩
    · rw [hadj]
      have h45 : eraOfDays z = 4 ∨ 5 ≤ eraOfDays z := by
        clear * - hera
        omega
      rcases h45 with h45 | h45
      · clear * - hdoeI hdoe c1 c9 c11 hdoy305 h45 h0 h1
        omega
      · clear * - c1 h45
        omega
    · rw [hadj]
      clear * - hdoeI hdoe hera c1 c9 c11 hdoy305 h0 h1
      omega
    · unfold daysInMonth
      rw [if_neg (by omega : ¬ monthOf (doeOfDays z) = 2)]
      by_cases h30 : monthOf (doeOfDays z) = 4 ∨ monthOf (doeOfDays z) = 6 ∨
          monthOf (doeOfDays z) = 9 ∨ monthOf (doeOfDays z) = 11
      · rw [if_pos h30]
        exact c14 h30
      · rw [if_neg h30]
        exact c5
    · rw [hadj]
      simp only [daysFromCivil]
      rw [if_neg hM2, if_pos (by omega : 2 < monthOf (doeOfDays z))]
      have hmp : monthOf (doeOfDays z) - 3 = mpOf (doeOfDays z) := c6 (by omega)
      rw [hmp, c8]
      have hera2 : ((yoeOf (doeOfDays z) : Int) + eraOfDays z * 400 - 0) / 400 =
          eraOfDays z := by
        clear * - c1 hera
        omega
      rw [hera2]
      have hyoe2 : ((yoeOf (doeOfDays z) : Int) + eraOfDays z * 400 - 0 -
          eraOfDays z * 400).toNat = yoeOf (doeOfDays z) := by
        clear * - c1 hera
        omega
      rw [hyoe2]
      clear * - hdoeI hdoe hera c1 c11 h0 h1
      omega

/-! ## Evaluating the parser on rendered date strings -/

/-- A rendered digit character decodes to the digit. -/
theorem digitVal_digitChar10 (n : Nat) : digitVal (digitChar10 n) = some (n % 10) := by
  unfold digitChar10
  have h : n % 10 < 10 := Nat.mod_lt _ (by omega)
  generalize n % 10 = k at *
  interval_cases k <;> decide

/-- A rendered digit character is not a plus sign. -/
theorem digitChar10_ne_plus (n : Nat) : ¬ digitChar10 n = '+' := by
  unfold digitChar10
  have h : n % 10 < 10 := Nat.mod_lt _ (by omega)
  generalize n % 10 = k at *
  interval_cases k <;> decide

/-- A rendered digit character is not a hyphen. -/
theorem digitChar10_ne_minus (n : Nat) : ¬ digitChar10 n = '-' := by
  unfold digitChar10
  have h : n % 10 < 10 := Nat.mod_lt _ (by omega)
  generalize n % 10 = k at *
  interval_cases k <;> decide

/-- Lemma that `parseTwo` consumes two rendered digits. -/
theorem parseTwo_digits (a b : Nat) (rest : List Char) :
    parseTwo (digitChar10 a :: digitChar10 b :: rest) =
      some (10 * (a % 10) + b % 10, rest) := by
  simp only [parseTwo, digitVal_digitChar10]

/-- Lemma that `parseFour` reads back a `pad4` rendering. -/
theorem parseFour_pad4 (y : Nat) (rest : List Char) (h : y ≤ 9999) :
    parseFour (pad4 y ++ rest) = some (y, rest) := by
  simp only [pad4, List.cons_append, List.nil_append, parseFour, parseTwo_digits]
  have e1 : 100 * (10 * (y / 1000 % 10) + y / 100 % 10) + (10 * (y / 10 % 10) + y % 10) = y := by
    omega
  rw [e1]

/-- Lemma that `parseYearField` reads back a `pad4` rendering. -/
theorem parseYearField_pad4 (y : Nat) (rest : List Char) (h : y ≤ 9999) :
    parseYearField (pad4 y ++ rest) = some ((y : Int), rest) := by
  have hp : pad4 y ++ rest =
      digitChar10 (y / 1000) :: (digitChar10 (y / 100) :: digitChar10 (y / 10) ::
        digitChar10 y :: rest) := by
    simp only [pad4, List.cons_append, List.nil_append]
  rw [hp]
  simp only [parseYearField]
  rw [if_neg (digitChar10_ne_plus _), if_neg (digitChar10_ne_minus _)]
  rw [show digitChar10 (y / 1000) :: digitChar10 (y / 100) :: digitChar10 (y / 10) ::
      digitChar10 y :: rest = pad4 y ++ rest from hp.symm]
  rw [parseFour_pad4 y rest h]

/-- No month is longer than 31 days. -/
theorem daysInMonth_le_31 (y : Int) (m : Nat) : daysInMonth y m ≤ 31 := by
  unfold daysInMonth
  split_ifs <;> omega

/-- The parser reads back a rendered in-range date as the UTC midnight of
that civil date. -/
theorem parseDateChars_iso (y : Int) (m d : Nat) (hy0 : 0 ≤ y) (hy : y ≤ 9999)
    (hm1 : 1 ≤ m) (hm : m ≤ 12) (hd1 : 1 ≤ d) (hd : d ≤ daysInMonth y m) :
    parseDateChars (isoDateChars y m d) = some (daysFromCivil y m d * 86400000) := by
  have hd99 : d ≤ 31 := le_trans hd (daysInMonth_le_31 y m)
  have hiso : isoDateChars y m d = pad4 y.toNat ++ ('-' :: pad2 m) ++ ('-' :: pad2 d) := by
    unfold isoDateChars
    rw [if_pos ⟨hy0, hy⟩]
  rw [hiso]
  simp only [parseDateChars, List.append_assoc]
  rw [parseYearField_pad4 _ _ (by omega)]
  rw [Int.toNat_of_nonneg hy0]
  simp only [List.cons_append, parseMonthDay, pad2, List.nil_append, parseTwo_digits]
  rw [show 10 * (m / 10 % 10) + m % 10 = m from by omega]
  rw [show 10 * (d / 10 % 10) + d % 10 = d from by omega]
  rw [if_pos ⟨hm1, hm, hd1, hd⟩]
  simp only [parseTimePart]
  rw [add_zero]

/-- Re-parsing the rendered date of a supported-range epoch day recovers
that day's month: the month filter agrees with the rendered month. -/
theorem jsMonthOf_isoDate (z : Int) (h0 : 0 ≤ z) (h1 : z ≤ 2932896) :
    jsMonthOfDateString (String.mk (isoDateChars (civilFromDays z).1
      (civilFromDays z).2.1 (civilFromDays z).2.2)) = some (civilFromDays z).2.1 := by
  obtain ⟨b1, b2, b3, b4, b5, b6, b7, b8⟩ := civilFromDays_correct z h0 h1
  unfold jsMonthOfDateString
  have htl : (String.mk (isoDateChars (civilFromDays z).1 (civilFromDays z).2.1
      (civilFromDays z).2.2)).toList = isoDateChars (civilFromDays z).1
      (civilFromDays z).2.1 (civilFromDays z).2.2 := rfl
  rw [htl, parseDateChars_iso _ _ _ (by omega) (by omega) b3 b4 b5 b7, b8]
  have hclip : clipTime (z * 86400000) = some (z * 86400000) := by
    unfold clipTime
    rw [if_pos (by omega)]
  rw [Option.some_bind, hclip]
  have hday : utcDayOf (z * 86400000) = z := by
    unfold utcDayOf
    exact Int.mul_ediv_cancel _ (by norm_num)
  show some (civilFromDays (utcDayOf (z * 86400000))).2.1 = some (civilFromDays z).2.1
  rw [hday]

/-! ## Sorting facts -/

theorem charListCollLE_total (as : List Char) :
    ∀ bs, charListCollLE as bs = true ∨ charListCollLE bs as = true := by
  induction as with
  | nil => intro bs; exact Or.inl rfl
  | cons a as ih =>
    intro bs
    cases bs with
    | nil => exact Or.inr rfl
    | cons b bs =>
      by_cases h1 : collWeight a < collWeight b
      · left
        simp [charListCollLE, h1]
      · by_cases h2 : collWeight b < collWeight a
        · right
          simp [charListCollLE, h2]
        · rcases ih bs with h | h
          · left
            simp [charListCollLE, h1, h2, h]
          · right
            simp [charListCollLE, h1, h2, h]

theorem charListCollLE_trans (as : List Char) :
    ∀ bs cs, charListCollLE as bs = true → charListCollLE bs cs = true →
      charListCollLE as cs = true := by
  induction as with
  | nil => intro bs cs hab hbc; rfl
  | cons a as ih =>
    intro bs cs hab hbc
    cases bs with
    | nil => simp [charListCollLE] at hab
    | cons b bs =>
      cases cs with
      | nil => simp [charListCollLE] at hbc
      | cons c cs =>
        simp only [charListCollLE] at hab hbc ⊢
        by_cases h2 : collWeight b < collWeight a
        · rw [if_neg (by omega : ¬ collWeight a < collWeight b), if_pos h2] at hab
          simp at hab
        by_cases h4 : collWeight c < collWeight b
        · rw [if_neg (by omega : ¬ collWeight b < collWeight c), if_pos h4] at hbc
          simp at hbc
        by_cases h1 : collWeight a < collWeight b
        · by_cases h3 : collWeight b < collWeight c
          · rw [if_pos (by omega : collWeight a < collWeight c)]
          · rw [if_pos (by omega : collWeight a < collWeight c)]
        · by_cases h3 : collWeight b < collWeight c
          · rw [if_pos (by omega : collWeight a < collWeight c)]
          · rw [if_neg (by omega : ¬ collWeight a < collWeight c),
              if_neg (by omega : ¬ collWeight c < collWeight a)]
            rw [if_neg h1, if_neg h2] at hab
            rw [if_neg h3, if_neg h4] at hbc
            exact ih bs cs hab hbc

instance : IsTotal CalendarEvent eventLE := by
  constructor
  intro a b
  unfold eventLE
  match a.date, b.date with
  | none, none => exact Or.inl trivial
  | none, some _ => exact Or.inr trivial
  | some _, none => exact Or.inl trivial
  | some x, some y => exact charListCollLE_total x.toList y.toList

instance : IsTrans CalendarEvent eventLE := by
  constructor
  intro a b c hab hbc
  unfold eventLE at hab hbc ⊢
  match ha : a.date, hb : b.date, hc : c.date with
  | none, none, none => trivial
  | none, none, some _ => rw [ha, hb] at hab; rw [hb, hc] at hbc; exact hbc
  | none, some _, none => trivial
  | none, some _, some _ => rw [ha, hb] at hab; exact hab.elim
  | some _, none, none => trivial
  | some _, none, some _ => rw [hb, hc] at hbc; exact hbc.elim
  | some _, some _, none => trivial
  | some x, some y, some z =>
    rw [ha, hb] at hab; rw [hb, hc] at hbc
    exact charListCollLE_trans x.toList y.toList z.toList hab hbc

/-- On plain date characters the collation weights order exactly as the
code units do: the only inversion, `'+'` against `'-'`, needs the sign. -/
theorem collWeight_lt_iff (a b : Char) (ha : dateChar a = true)
    (hb : dateChar b = true) : (collWeight a < collWeight b ↔ a.toNat < b.toNat) := by
  unfold dateChar at ha hb
  rw [decide_eq_true_eq] at ha hb
  have h45 : ('-' : Char).toNat = 45 := rfl
  have h43 : ('+' : Char).toNat = 43 := rfl
  unfold collWeight
  by_cases ha1 : a = '-'
  · by_cases hb1 : b = '-'
    · subst ha1; subst hb1
      simp
    · have hb2 : 48 ≤ b.toNat ∧ b.toNat ≤ 57 := hb.resolve_left hb1
      have hbp : ¬ b = '+' := by
        intro h
        rw [h, h43] at hb2
        omega
      subst ha1
      rw [if_pos rfl, if_neg hb1, if_neg hbp, h45]
      omega
  · have ha2 : 48 ≤ a.toNat ∧ a.toNat ≤ 57 := ha.resolve_left ha1
    have hap : ¬ a = '+' := by
      intro h
      rw [h, h43] at ha2
      omega
    by_cases hb1 : b = '-'
    · subst hb1
      rw [if_neg ha1, if_neg hap, if_pos rfl, h45]
      omega
    · have hb2 : 48 ≤ b.toNat ∧ b.toNat ≤ 57 := hb.resolve_left hb1
      have hbp : ¬ b = '+' := by
        intro h
        rw [h, h43] at hb2
        omega
      rw [if_neg ha1, if_neg hap, if_neg hb1, if_neg hbp]
      omega

/-- On lists of plain date characters the collation order coincides with
the ordinal order. -/
theorem charListCollLE_agree (as : List Char) :
    ∀ bs, as.all dateChar = true → bs.all dateChar = true →
      charListCollLE as bs = charListLE as bs := by
  induction as with
  | nil => intro bs _ _; rfl
  | cons a as ih =>
    intro bs ha hb
    cases bs with
    | nil => rfl
    | cons b bs =>
      rw [List.all_cons, Bool.and_eq_true] at ha hb
      obtain ⟨ha1, ha2⟩ := ha
      obtain ⟨hb1, hb2⟩ := hb
      simp only [charListCollLE, charListLE]
      by_cases h1 : a.toNat < b.toNat
      · rw [if_pos ((collWeight_lt_iff a b ha1 hb1).mpr h1), if_pos h1]
      · by_cases h2 : b.toNat < a.toNat
        · rw [if_neg (fun hc => h1 ((collWeight_lt_iff a b ha1 hb1).mp hc)),
            if_pos ((collWeight_lt_iff b a hb1 ha1).mpr h2), if_neg h1, if_pos h2]
        · rw [if_neg (fun hc => h1 ((collWeight_lt_iff a b ha1 hb1).mp hc)),
            if_neg (fun hc => h2 ((collWeight_lt_iff b a hb1 ha1).mp hc)),
            if_neg h1, if_neg h2]
          exact ih bs ha2 hb2

/-- On events whose dates are made of plain date characters, the source
comparator implies the claim's ordinal comparator. -/
theorem eventLE_agree (a b : CalendarEvent) (ha : eventDatePlain a = true)
    (hb : eventDatePlain b = true) (h : eventLE a b) : ordinalEventLE a b := by
  unfold eventDatePlain at ha hb
  unfold eventLE at h
  unfold ordinalEventLE
  match hda : a.date, hdb : b.date with
  | none, none => trivial
  | none, some _ => rw [hda, hdb] at h; exact h.elim
  | some _, none => trivial
  | some x, some y =>
    rw [hda, hdb] at h
    simp only [hda] at ha
    simp only [hdb] at hb
    show strLE x y = true
    unfold strLE
    unfold strCollLE at h
    rw [← charListCollLE_agree x.toList y.toList ha hb]
    exact h

/-- A decimal digit character is a plain date character. -/
theorem dateChar_digitChar10 (n : Nat) : dateChar (digitChar10 n) = true := by
  unfold digitChar10
  have h : n % 10 < 10 := Nat.mod_lt _ (by norm_num)
  generalize n % 10 = k at h
  interval_cases k <;> decide

/-- A supported-range rendered date consists of plain date characters. -/
theorem isoDateChars_plain (y : Int) (m d : Nat) (h0 : 0 ≤ y) (h : y ≤ 9999) :
    (String.mk (isoDateChars y m d)).toList.all dateChar = true := by
  show (isoDateChars y m d).all dateChar = true
  unfold isoDateChars
  rw [if_pos ⟨h0, h⟩]
  have hm : dateChar '-' = true := by decide
  simp [pad4, pad2, dateChar_digitChar10, hm]

/-- Everything compares at-or-before a null-date event. -/
theorem eventLE_of_null (x b : CalendarEvent) (h : b.date = none) : eventLE x b := by
  unfold eventLE
  rw [h]
  cases x.date <;> trivial

/-- Under the comparator, a null-date event before another event forces the
second to be null-dated as well. -/
theorem eventLE_null_imp (a b : CalendarEvent) (hab : eventLE a b)
    (ha : a.date = none) : b.date = none := by
  unfold eventLE at hab
  rw [ha] at hab
  cases hb : b.date with
  | none => rfl
  | some s =>
    rw [hb] at hab
    exact hab.elim

/-- The sorted event list is sorted under the comparator. -/
theorem sortEvents_sorted (l : List CalendarEvent) : List.Sorted eventLE (sortEvents l) :=
  List.sorted_insertionSort eventLE l

/-- Sorting permutes the list. -/
theorem sortEvents_perm (l : List CalendarEvent) : (sortEvents l).Perm l :=
  List.perm_insertionSort eventLE l

/-- Sorting an already-sorted list changes nothing. -/
theorem sortEvents_of_sorted (l : List CalendarEvent) (h : List.Sorted eventLE l) :
    sortEvents l = l :=
  h.insertionSort_eq

/-- Sorting is idempotent. -/
theorem sortEvents_idem (l : List CalendarEvent) :
    sortEvents (sortEvents l) = sortEvents l :=
  sortEvents_of_sorted _ (sortEvents_sorted l)

/-- Inserting preserves the subsequence of null-date events: a null-date
element passes over every dated element and stops at the first null. -/
theorem filter_isNone_orderedInsert (x : CalendarEvent) (l : List CalendarEvent) :
    (List.orderedInsert eventLE x l).filter (fun e => e.date.isNone) =
      (x :: l).filter (fun e => e.date.isNone) := by
  induction l with
  | nil => rfl
  | cons y ys ih =>
    by_cases hxy : eventLE x y
    · rw [List.orderedInsert_of_le _ _ hxy]
    · have hstep : List.orderedInsert eventLE x (y :: ys) =
          y :: List.orderedInsert eventLE x ys := by
        simp [List.orderedInsert, hxy]
      rw [hstep]
      have hy : y.date.isNone = false := by
        cases hyd : y.date with
        | none => exact absurd (eventLE_of_null x y hyd) hxy
        | some s => rfl
      simp only [List.filter_cons, hy, ih, Bool.false_eq_true, if_false]

/-- The stable sort leaves the list of null-date events unchanged. -/
theorem filter_isNone_sortEvents (l : List CalendarEvent) :
    (sortEvents l).filter (fun e => e.date.isNone) =
      l.filter (fun e => e.date.isNone) := by
  induction l with
  | nil => rfl
  | cons x xs ih =>
    show (List.orderedInsert eventLE x (List.insertionSort eventLE xs)).filter _ = _
    rw [filter_isNone_orderedInsert]
    simp only [List.filter_cons]
    rw [show (List.insertionSort eventLE xs).filter (fun e => e.date.isNone) =
        xs.filter (fun e => e.date.isNone) from ih]

/-- Rendered in-range dates are ten characters long. -/
theorem isoDateChars_len10 (y : Int) (m d : Nat) (h0 : 0 ≤ y) (h : y ≤ 9999) :
    (String.mk (isoDateChars y m d)).length = 10 := by
  unfold isoDateChars
  rw [if_pos ⟨h0, h⟩]
  show (pad4 y.toNat ++ '-' :: pad2 m ++ '-' :: pad2 d).length = 10
  simp [pad4, pad2]

/-! ## Claim theorems -/

set_option maxHeartbeats 1000000 in
/-- C1: for every truthy epoch-second count `t` whose instant falls in the
supported range, `formatDate` returns the ten-character zero-padded
`YYYY-MM-DD` rendering of the UTC calendar day of the instant
`t * 1000` ms (the civil date that maps back to that UTC day); in
particular `formatDate 1 = "1970-01-01"` and
`formatDate 1709164800 = "2024-02-29"`, while `formatDate 0` is `null` by
the falsy short-circuit. -/
theorem formatDate_epochSeconds (t : Int) (ht1 : 1 ≤ t) (ht2 : t ≤ 253402300799) :
    (∃ y m d,
      formatDate (.vnum t) =
        some (String.mk (pad4 y.toNat ++ '-' :: pad2 m ++ '-' :: pad2 d)) ∧
      1970 ≤ y ∧ y ≤ 9999 ∧ 1 ≤ m ∧ m ≤ 12 ∧ 1 ≤ d ∧ d ≤ daysInMonth y m ∧
      daysFromCivil y m d = utcDayOf (t * 1000) ∧
      (String.mk (pad4 y.toNat ++ '-' :: pad2 m ++ '-' :: pad2 d)).length = 10) ∧
    formatDate (.vnum 1) = some ("1970-01-01") ∧
    formatDate (.vnum 1709164800) = some ("2024-02-29") ∧
    formatDate (.vnum 0) = none := by
  refine ⟨?_, by decide, by decide, by decide⟩
  have hz0 : 0 ≤ utcDayOf (t * 1000) := by
    unfold utcDayOf
    omega
  have hz1 : utcDayOf (t * 1000) ≤ 2932896 := by
    unfold utcDayOf
    omega
  obtain ⟨b1, b2, b3, b4, b5, b6, b7, b8⟩ :=
    civilFromDays_correct (utcDayOf (t * 1000)) hz0 hz1
  refine ⟨(civilFromDays (utcDayOf (t * 1000))).1, (civilFromDays (utcDayOf (t * 1000))).2.1,
    (civilFromDays (utcDayOf (t * 1000))).2.2, ?_, b1, b2, b3, b4, b5, b7, b8, ?_⟩
  · unfold formatDate
    have htr : truthy (.vnum t) = true := by
      simp only [truthy, bne_iff_ne, ne_eq]
      omega
    rw [htr, if_neg (by decide : ¬ true = false)]
    have hct : clipTime (t * 1000) = some (t * 1000) := by
      unfold clipTime
      rw [if_pos (by omega)]
    simp only [formatDateTimeValue, hct]
    show some (isoDateOfMs (t * 1000)) = _
    unfold isoDateOfMs
    congr 1
    unfold isoDateChars
    rw [if_pos ⟨by omega, b2⟩]
  · have hh := isoDateChars_len10 (civilFromDays (utcDayOf (t * 1000))).1
      (civilFromDays (utcDayOf (t * 1000))).2.1 (civilFromDays (utcDayOf (t * 1000))).2.2
      (by omega) b2
    unfold isoDateChars at hh
    rw [if_pos ⟨by omega, b2⟩] at hh
    exact hh

set_option maxHeartbeats 1000000 in
/-- C1 witness: the theorem applied at the leap-day instant. -/
theorem formatDate_epochSeconds_witness :
    (∃ y m d,
      formatDate (.vnum 1709164800) =
        some (String.mk (pad4 y.toNat ++ '-' :: pad2 m ++ '-' :: pad2 d)) ∧
      1970 ≤ y ∧ y ≤ 9999 ∧ 1 ≤ m ∧ m ≤ 12 ∧ 1 ≤ d ∧ d ≤ daysInMonth y m ∧
      daysFromCivil y m d = utcDayOf (1709164800 * 1000) ∧
      (String.mk (pad4 y.toNat ++ '-' :: pad2 m ++ '-' :: pad2 d)).length = 10) ∧
    formatDate (.vnum 1) = some ("1970-01-01") ∧
    formatDate (.vnum 1709164800) = some ("2024-02-29") ∧
    formatDate (.vnum 0) = none :=
  formatDate_epochSeconds 1709164800 (by norm_num) (by norm_num)

/-- C2 counterexample: the truthy finite number 300000000000 denotes a
representable instant (year 11476), and `formatDate` returns its expanded
thirteen-character rendering, so the result is neither `null` nor a
ten-character `YYYY-MM-DD` string. -/
theorem formatDate_expanded_counterexample :
    formatDate (.vnum 300000000000) = some ("+011476-08-15") ∧
    ("+011476-08-15" : String).length = 13 := by
  constructor
  · decide
  · decide

/-- C2 (amended): `formatDate` never throws and maps every garbage or falsy
input to `null`; for every input the result is `null` or the rendered ISO
date of a valid instant, which is a ten-character `YYYY-MM-DD` string
whenever the UTC year is in 0..9999 (and an expanded `±YYYYYY-MM-DD`
string otherwise). -/
theorem formatDate_null_or_isoDate :
    formatDate (.vstr ("not-a-date")) = none ∧
    formatDate (.vobj []) = none ∧
    formatDate (.varr []) = none ∧
    formatDate (.vbool false) = none ∧
    formatDate .vnan = none ∧
    formatDate .vnull = none ∧
    formatDate .vundefined = none ∧
    formatDate (.vstr ("")) = none ∧
    formatDate (.vnum 0) = none ∧
    (∀ v, formatDate v = none ∨
      ∃ y m d, formatDate v = some (String.mk (isoDateChars y m d)) ∧
        (0 ≤ y → y ≤ 9999 → (String.mk (isoDateChars y m d)).length = 10)) := by
  refine ⟨by decide, ?_, ?_, by decide, by decide, by decide, by decide,
    by decide, by decide, ?_⟩
  · simp only [formatDate, formatDateTimeValue, toPrimitiveForDate]
    rw [show jsToString (.vobj []) = ("[object Object]") from by simp [jsToString]]
    decide
  · simp only [formatDate, formatDateTimeValue, toPrimitiveForDate]
    rw [show jsToString (.varr []) = ("") from by simp [jsToString, String.intercalate]]
    decide
  intro v
  by_cases htr : truthy v = false
  · left
    unfold formatDate
    rw [if_pos htr]
  · unfold formatDate
    rw [if_neg htr]
    cases hfv : formatDateTimeValue v with
    | none => exact Or.inl rfl
    | some ms =>
      right
      refine ⟨(civilFromDays (utcDayOf ms)).1, (civilFromDays (utcDayOf ms)).2.1,
        (civilFromDays (utcDayOf ms)).2.2, rfl, ?_⟩
      intro hy0 hy
      exact isoDateChars_len10 _ _ _ hy0 hy

/-- C2 witness: the totality disjunct applied at a concrete input. -/
theorem formatDate_null_or_isoDate_witness :
    formatDate (.vstr ("not-a-date")) = none ∧
    (formatDate (.vnum 86400) = none ∨
      ∃ y m d, formatDate (.vnum 86400) = some (String.mk (isoDateChars y m d)) ∧
        (0 ≤ y → y ≤ 9999 → (String.mk (isoDateChars y m d)).length = 10)) :=
  ⟨formatDate_null_or_isoDate.1, formatDate_null_or_isoDate.2.2.2.2.2.2.2.2.2 (.vnum 86400)⟩

set_option maxHeartbeats 1000000 in
/-- C3: with a month filter `m` and a non-empty grade filter `G`, the output
events are exactly (as a permutation — the output is then sorted) the
mapped input events whose date re-parses to month `m` and whose numeric
grade lies in `G`; a null or empty date never matches, a grade matches
exactly when it is the number of a member of `G`, the re-parsed month of a
rendered supported-range date is its rendered month, and scenario D keeps
exactly the two January events of grades 2 and 3. -/
theorem formatCalendar_monthGradeFilter :
    (∀ (data : JSValue) (m : Int) (G : List Int) mapped resp,
      G ≠ [] →
      (litcalEvents (getProp data ("litcal"))).mapM mapEvent = .ok mapped →
      formatCalendarResponse data (some m) (some G) = .ok resp →
      resp.events.Perm
        ((mapped.filter (fun e => monthMatches m e)).filter
          (fun e => gradeMatches G e))) ∧
    (∀ (m : Int) (e : CalendarEvent), monthMatches m e = true ↔
      ∃ s, e.date = some s ∧ ¬ s = ("") ∧
        ∃ em, jsMonthOfDateString s = some em ∧ (em : Int) = m) ∧
    (∀ (m : Int) (e : CalendarEvent), e.date = none → monthMatches m e = false) ∧
    (∀ (G : List Int) (e : CalendarEvent), gradeMatches G e = true ↔
      ∃ n, e.grade = .vnum n ∧ n ∈ G) ∧
    (∀ z : Int, 0 ≤ z → z ≤ 2932896 →
      jsMonthOfDateString (String.mk (isoDateChars (civilFromDays z).1
        (civilFromDays z).2.1 (civilFromDays z).2.2)) = some (civilFromDays z).2.1) ∧
    (fmtEventDates (formatCalendarResponse (.vobj [(("litcal"), .varr [
        .vobj [(("date"), .vstr ("2026-01-05")), (("grade"), .vnum 2)],
        .vobj [(("date"), .vstr ("2026-01-15")), (("grade"), .vnum 3)],
        .vobj [(("date"), .vstr ("2026-01-20")), (("grade"), .vnum 5)],
        .vobj [(("date"), .vstr ("2026-02-10")), (("grade"), .vnum 2)]])])
        (some 1) (some [2, 3])) =
      some [some ("2026-01-05"), some ("2026-01-15")]) ∧
    (fmtTotalEvents (formatCalendarResponse (.vobj [(("litcal"), .varr [
        .vobj [(("date"), .vstr ("2026-01-05")), (("grade"), .vnum 2)],
        .vobj [(("date"), .vstr ("2026-01-15")), (("grade"), .vnum 3)],
        .vobj [(("date"), .vstr ("2026-01-20")), (("grade"), .vnum 5)],
        .vobj [(("date"), .vstr ("2026-02-10")), (("grade"), .vnum 2)]])])
        (some 1) (some [2, 3])) = some 2) := by
  refine ⟨?_, ?_, ?_, ?_, ?_, by decide, by decide⟩
  · intro data m G mapped resp hG hmap hres
    unfold formatCalendarResponse at hres
    by_cases htr : truthy (getProp data ("litcal")) = false
    · rw [if_pos htr] at hres
      exact absurd hres (by intro hc; cases hc)
    · rw [if_neg htr, hmap] at hres
      have hlen : 0 < G.length := List.length_pos.mpr hG
      simp only [hlen, if_pos] at hres
      have hev : resp.events =
          sortEvents ((mapped.filter (fun e => monthMatches m e)).filter
            (fun e => gradeMatches G e)) := by
        cases hres
        rfl
      rw [hev]
      exact sortEvents_perm _
  · intro m e
    cases hd : e.date with
    | none => simp [monthMatches, hd]
    | some s =>
      simp only [monthMatches, hd]
      by_cases hs : s = ("")
      · rw [if_pos hs]
        simp [hs]
      · rw [if_neg hs]
        cases hjm : jsMonthOfDateString s with
        | none => simp [hjm, hs]
        | some em => simp [hjm, hs]
  · intro m e hd
    unfold monthMatches
    rw [hd]
  · intro G e
    cases hg : e.grade <;> simp [gradeMatches, hg, List.elem_iff]
  · exact fun z h0 h1 => jsMonthOf_isoDate z h0 h1

/-- C3 witness: the filter characterization applied to a concrete payload. -/
theorem formatCalendar_monthGradeFilter_witness :
    (CalendarResponse.events
      { metadata :=
        { locale := .vnull, national_calendar := .vnull, diocesan_calendar := .vnull,
          year := .vnull, total_events := 0,
          filters_applied := { month := some 1, grades := some [2] } }
        events := [] }).Perm
      ((([] : List CalendarEvent).filter (fun e => monthMatches 1 e)).filter
        (fun e => gradeMatches [2] e)) :=
  formatCalendar_monthGradeFilter.1 (.vobj [(("litcal"), .varr [])]) 1 [2] []
    { metadata :=
      { locale := .vnull, national_calendar := .vnull, diocesan_calendar := .vnull,
        year := .vnull, total_events := 0,
        filters_applied := { month := some 1, grades := some [2] } }
      events := [] }
    (by decide) rfl rfl

set_option maxHeartbeats 1000000 in
/-- C4 counterexample: a payload holding a valid year-11476 date
(epoch seconds `300000000000`, rendered `+011476-08-15`) and a valid
negative-year date (epoch seconds `-62198755200`, rendered
`-000001-01-01`)
formats to an event list that is NOT sorted by ordinal comparison of the
date strings: the comparator `localeCompare` ranks the hyphen-prefixed
date before the plus-prefixed one (collation puts dash punctuation before
the plus symbol), while code units rank `'+'` (0x2B) before `'-'` (0x2D),
so the program's output order is exactly the reverse of the ordinal
order the claim asserts. -/
theorem formatCalendar_localeSort_counterexample :
    formatCalendarResponse (.vobj [(("litcal"), .varr [
        .vobj [(("name"), .vstr ("A")), (("date"), .vnum 300000000000)],
        .vobj [(("name"), .vstr ("B")), (("date"), .vnum (-62198755200))]])])
        none none =
      .ok { metadata :=
            { locale := .vnull, national_calendar := .vnull,
              diocesan_calendar := .vnull, year := .vnull, total_events := 2,
              filters_applied := { month := none, grades := none } }
            events := [
              { name := .vstr ("B"), date := some ("-000001-01-01"),
                grade := .vundefined, grade_name := ("Unknown"),
                color := .varr [], common := .varr [],
                liturgical_year := .vnull },
              { name := .vstr ("A"), date := some ("+011476-08-15"),
                grade := .vundefined, grade_name := ("Unknown"),
                color := .varr [], common := .varr [],
                liturgical_year := .vnull }] } ∧
    ¬ List.Sorted ordinalEventLE [
        { name := .vstr ("B"), date := some ("-000001-01-01"),
          grade := .vundefined, grade_name := ("Unknown"),
          color := .varr [], common := .varr [],
          liturgical_year := .vnull },
        { name := .vstr ("A"), date := some ("+011476-08-15"),
          grade := .vundefined, grade_name := ("Unknown"),
          color := .varr [], common := .varr [],
          liturgical_year := .vnull }] ∧
    List.Sorted eventLE [
        { name := .vstr ("B"), date := some ("-000001-01-01"),
          grade := .vundefined, grade_name := ("Unknown"),
          color := .varr [], common := .varr [],
          liturgical_year := .vnull },
        { name := .vstr ("A"), date := some ("+011476-08-15"),
          grade := .vundefined, grade_name := ("Unknown"),
          color := .varr [], common := .varr [],
          liturgical_year := .vnull }] ∧
    strLE ("+011476-08-15") ("-000001-01-01") = true ∧
    strLE ("-000001-01-01") ("+011476-08-15") = false ∧
    strCollLE ("-000001-01-01") ("+011476-08-15") = true ∧
    strCollLE ("+011476-08-15") ("-000001-01-01") = false :=
  ⟨rfl, by decide, by decide, by decide, by decide, by decide, by decide⟩

/-- C4 (amended): every formatter output's event list is sorted by the
source comparator `a.date.localeCompare(b.date)` -- dated events ascending
in the default-collation order of their date strings, null-date events
after all dated events and mutually tied with their stable relative order
preserved -- and sorting is idempotent.  Whenever every date consists of
plain date characters (digits and hyphens, which covers every
supported-range `YYYY-MM-DD` rendering), the collation order coincides
with ordinal comparison and the list is also ordinally sorted, recovering
the original claim on that domain; with expanded-year dates the two orders
diverge. -/
theorem formatCalendar_sorted_stable_idem :
    (∀ data mF gF resp, formatCalendarResponse data mF gF = .ok resp →
      List.Sorted eventLE resp.events ∧
      resp.events.Pairwise (fun a b => a.date = none → b.date = none) ∧
      sortEvents resp.events = resp.events ∧
      ((∀ e ∈ resp.events, eventDatePlain e = true) →
        List.Sorted ordinalEventLE resp.events)) ∧
    (∀ l, sortEvents (sortEvents l) = sortEvents l) ∧
    (∀ l, (sortEvents l).Perm l) ∧
    (∀ l, (sortEvents l).filter (fun e => e.date.isNone) =
      l.filter (fun e => e.date.isNone)) ∧
    (∀ (y : Int) (m d : Nat), 0 ≤ y → y ≤ 9999 →
      (String.mk (isoDateChars y m d)).toList.all dateChar = true) := by
  refine ⟨?_, sortEvents_idem, sortEvents_perm, filter_isNone_sortEvents,
    isoDateChars_plain⟩
  intro data mF gF resp hres
  unfold formatCalendarResponse at hres
  by_cases htr : truthy (getProp data ("litcal")) = false
  · rw [if_pos htr] at hres
    cases hres
  · rw [if_neg htr] at hres
    cases hmap : (litcalEvents (getProp data ("litcal"))).mapM mapEvent with
    | error msg =>
      rw [hmap] at hres
      cases hres
    | ok mapped =>
      rw [hmap] at hres
      have hev : ∃ X, resp.events = sortEvents X := by
        cases hres
        exact ⟨_, rfl⟩
      obtain ⟨X, hX⟩ := hev
      rw [hX]
      refine ⟨sortEvents_sorted X, ?_, sortEvents_idem X, ?_⟩
      · exact (sortEvents_sorted X).imp (fun hab ha => eventLE_null_imp _ _ hab ha)
      · intro hplain
        exact List.Pairwise.imp_of_mem
          (fun ha hb hr => eventLE_agree _ _ (hplain _ ha) (hplain _ hb) hr)
          (sortEvents_sorted X)

/-- C4 witness: the sortedness facts at a concrete formatter output. -/
theorem formatCalendar_sorted_stable_idem_witness :
    List.Sorted eventLE (CalendarResponse.events
      { metadata :=
        { locale := .vnull, national_calendar := .vnull, diocesan_calendar := .vnull,
          year := .vnull, total_events := 0,
          filters_applied := { month := none, grades := none } }
        events := [] }) ∧
    (CalendarResponse.events
      { metadata :=
        { locale := .vnull, national_calendar := .vnull, diocesan_calendar := .vnull,
          year := .vnull, total_events := 0,
          filters_applied := { month := none, grades := none } }
        events := [] }).Pairwise (fun a b => a.date = none → b.date = none) ∧
    sortEvents (CalendarResponse.events
      { metadata :=
        { locale := .vnull, national_calendar := .vnull, diocesan_calendar := .vnull,
          year := .vnull, total_events := 0,
          filters_applied := { month := none, grades := none } }
        events := [] }) =
      CalendarResponse.events
      { metadata :=
        { locale := .vnull, national_calendar := .vnull, diocesan_calendar := .vnull,
          year := .vnull, total_events := 0,
          filters_applied := { month := none, grades := none } }
        events := [] } ∧
    List.Sorted ordinalEventLE (CalendarResponse.events
      { metadata :=
        { locale := .vnull, national_calendar := .vnull, diocesan_calendar := .vnull,
          year := .vnull, total_events := 0,
          filters_applied := { month := none, grades := none } }
        events := [] }) :=
  ⟨(formatCalendar_sorted_stable_idem.1 (.vobj [(("litcal"), .varr [])]) none none
    { metadata :=
      { locale := .vnull, national_calendar := .vnull, diocesan_calendar := .vnull,
        year := .vnull, total_events := 0,
        filters_applied := { month := none, grades := none } }
      events := [] } rfl).1,
   (formatCalendar_sorted_stable_idem.1 (.vobj [(("litcal"), .varr [])]) none none
    { metadata :=
      { locale := .vnull, national_calendar := .vnull, diocesan_calendar := .vnull,
        year := .vnull, total_events := 0,
        filters_applied := { month := none, grades := none } }
      events := [] } rfl).2.1,
   (formatCalendar_sorted_stable_idem.1 (.vobj [(("litcal"), .varr [])]) none none
    { metadata :=
      { locale := .vnull, national_calendar := .vnull, diocesan_calendar := .vnull,
        year := .vnull, total_events := 0,
        filters_applied := { month := none, grades := none } }
      events := [] } rfl).2.2.1,
   (formatCalendar_sorted_stable_idem.1 (.vobj [(("litcal"), .varr [])]) none none
    { metadata :=
      { locale := .vnull, national_calendar := .vnull, diocesan_calendar := .vnull,
        year := .vnull, total_events := 0,
        filters_applied := { month := none, grades := none } }
      events := [] } rfl).2.2.2 (fun _ he => nomatch he)⟩

/-- C5: a payload whose `litcal` is a mapping formats identically to the
payload with `litcal` replaced by the mapping's values in order, and a
three-entry mapping with no filters yields three events. -/
theorem formatCalendar_mappingAsValues :
    (∀ (d1 d2 : JSValue) (fields : List (String × JSValue)) mF gF,
      getProp d1 ("litcal") = .vobj fields →
      getProp d2 ("litcal") = .varr (fields.map (fun kv => kv.2)) →
      getProp d1 ("settings") = getProp d2 ("settings") →
      formatCalendarResponse d1 mF gF = formatCalendarResponse d2 mF gF) ∧
    (fmtTotalEvents (formatCalendarResponse (.vobj [(("litcal"), .vobj [
        (("A"), .vobj [(("name"), .vstr ("a"))]),
        (("B"), .vobj [(("name"), .vstr ("b"))]),
        (("C"), .vobj [(("name"), .vstr ("c"))])])]) none none) = some 3) := by
  constructor
  · intro d1 d2 fields mF gF h1 h2 h3
    unfold formatCalendarResponse
    rw [h1, h2, h3]
    rfl
  · rfl

/-- C5 witness: the shape equivalence applied to concrete payloads. -/
theorem formatCalendar_mappingAsValues_witness :
    formatCalendarResponse (.vobj [(("litcal"), .vobj [(("A"), .vobj [])])]) none none =
      formatCalendarResponse (.vobj [(("litcal"), .varr [.vobj []])]) none none :=
  formatCalendar_mappingAsValues.1 (.vobj [(("litcal"), .vobj [(("A"), .vobj [])])])
    (.vobj [(("litcal"), .varr [.vobj []])]) [(("A"), .vobj [])] none none rfl rfl rfl

/-- C6: the formatter never lets an exception escape: a missing or falsy
`litcal` yields the fixed error result, a per-event mapping failure is
converted into an `Error formatting calendar` result, and every call
returns either an error result or a response. -/
theorem formatCalendar_errorContainment :
    (∀ data mF gF, truthy (getProp data ("litcal")) = false →
      formatCalendarResponse data mF gF = .err ("No calendar data available")) ∧
    (∀ data mF gF msg,
      (litcalEvents (getProp data ("litcal"))).mapM mapEvent = .error msg →
      ¬ truthy (getProp data ("litcal")) = false →
      formatCalendarResponse data mF gF = .err (("Error formatting calendar: ") ++ msg)) ∧
    (∀ data mF gF, (∃ m, formatCalendarResponse data mF gF = .err m) ∨
      (∃ r, formatCalendarResponse data mF gF = .ok r)) ∧
    (formatCalendarResponse (.vobj []) none none = .err ("No calendar data available")) := by
  refine ⟨?_, ?_, ?_, rfl⟩
  · intro data mF gF h
    unfold formatCalendarResponse
    rw [if_pos h]
  · intro data mF gF msg hmap htr
    unfold formatCalendarResponse
    rw [if_neg htr, hmap]
  · intro data mF gF
    cases hr : formatCalendarResponse data mF gF with
    | err m => exact Or.inl ⟨m, rfl⟩
    | ok r => exact Or.inr ⟨r, rfl⟩

/-- C6 witness: both error paths at concrete payloads. -/
theorem formatCalendar_errorContainment_witness :
    formatCalendarResponse (.vobj []) none none = .err ("No calendar data available") ∧
    formatCalendarResponse (.vobj [(("litcal"), .varr [.vnull])]) none none =
      .err (("Error formatting calendar: ") ++
        ("Cannot read properties of null (reading 'name')")) :=
  ⟨formatCalendar_errorContainment.1 (.vobj []) none none rfl,
   formatCalendar_errorContainment.2.1 (.vobj [(("litcal"), .varr [.vnull])]) none none
     ("Cannot read properties of null (reading 'name')") rfl (by decide)⟩

/-- Every kept grade is in range. -/
theorem keptGrades_mem (s : String) (g : Int) (h : g ∈ keptGrades s) :
    0 ≤ g ∧ g ≤ 7 := by
  unfold keptGrades at h
  rw [List.mem_filterMap] at h
  obtain ⟨og, _, hog⟩ := h
  cases og with
  | none => cases hog
  | some v =>
    simp only [keepGrade] at hog
    split at hog
    · cases hog
      assumption
    · cases hog

/-- C7: `parseGradeFilter` splits on commas, trims, parses integers and
keeps exactly the in-range values in order with duplicates preserved,
returning `undefined` when nothing survives (or the input is falsy);
`"2,99"` keeps `[2]`, `"99"` nothing, `"2,2,3"` keeps the duplicate. -/
theorem parseGradeFilter_spec :
    parseGradeFilter (some (.str ("2,99"))) = some [2] ∧
    parseGradeFilter (some (.str ("99"))) = none ∧
    parseGradeFilter (some (.str ("2,2,3"))) = some [2, 2, 3] ∧
    parseGradeFilter (some (.str (""))) = none ∧
    parseGradeFilter none = none ∧
    (∀ s, ¬ s = ("") →
      parseGradeFilter (some (.str s)) =
        (if keptGrades s = [] then none else some (keptGrades s))) ∧
    (∀ s l, parseGradeFilter (some (.str s)) = some l →
      ¬ l = [] ∧ ∀ g ∈ l, 0 ≤ g ∧ g ≤ 7) := by
  refine ⟨by decide, by decide, by decide, by decide, rfl, ?_, ?_⟩
  · intro s hs
    have hf : gradeArgFalsy (.str s) = false := by
      simp [gradeArgFalsy, hs]
    simp only [parseGradeFilter, hf, Bool.false_eq_true, if_false, gradeArgString]
    by_cases hk : keptGrades s = []
    · rw [if_pos hk, hk]
      rfl
    · rw [if_neg hk, if_pos (List.length_pos.mpr hk)]
  · intro s l h
    simp only [parseGradeFilter] at h
    by_cases hfal : gradeArgFalsy (.str s) = true
    · rw [if_pos hfal] at h
      cases h
    · rw [if_neg hfal] at h
      by_cases hlen : 0 < (keptGrades (gradeArgString (.str s))).length
      · rw [if_pos hlen] at h
        cases h
        constructor
        · exact List.ne_nil_of_length_pos hlen
        · exact fun g hg => keptGrades_mem _ g hg
      · rw [if_neg hlen] at h
        cases h

/-- C7 witness: the characterization and the range bound at `"5,9"`. -/
theorem parseGradeFilter_spec_witness :
    parseGradeFilter (some (.str ("5,9"))) =
      (if keptGrades ("5,9") = [] then none else some (keptGrades ("5,9"))) ∧
    (¬ ([5] : List Int) = [] ∧ ∀ g ∈ ([5] : List Int), 0 ≤ g ∧ g ≤ 7) :=
  ⟨parseGradeFilter_spec.2.2.2.2.2.1 ("5,9") (by decide),
   parseGradeFilter_spec.2.2.2.2.2.2 ("5,9") [5] (by decide)⟩

/-- C8: `validateYear` returns the parsed integer of the trimmed input (or
of the current-year default when the input is absent or trims to empty)
when it lies in `[1970, 9999]`, and raises the range error exactly when
parsing fails or the integer is out of range; `"1969"` and `"10000"` both
fail with the range error and an absent input yields the current year. -/
theorem validateYear_spec :
    (∀ cy y v, parseIntChars (effectiveYearString cy y).toList = some v →
      1970 ≤ v → v ≤ 9999 → validateYear cy y = .ok v) ∧
    (∀ cy y, validateYear cy y = .error ("Year must be between 1970 and 9999") ↔
      (parseIntChars (effectiveYearString cy y).toList = none ∨
       ∃ v, parseIntChars (effectiveYearString cy y).toList = some v ∧
         (v < 1970 ∨ 9999 < v))) ∧
    (∀ cy : Int, 1970 ≤ cy → cy ≤ 9999 →
      parseIntChars (toString cy).toList = some cy → validateYear cy none = .ok cy) ∧
    validateYear 2026 (some ("1969")) = .error ("Year must be between 1970 and 9999") ∧
    validateYear 2026 (some ("10000")) = .error ("Year must be between 1970 and 9999") ∧
    validateYear 2026 none = .ok 2026 := by
  refine ⟨?_, ?_, ?_, rfl, rfl, rfl⟩
  · intro cy y v hp h1 h2
    unfold validateYear
    simp only [hp]
    rw [if_neg (by omega)]
  · intro cy y
    unfold validateYear
    cases hp : parseIntChars (effectiveYearString cy y).toList with
    | none =>
      simp only [hp]
      constructor
      · intro _
        exact Or.inl trivial
      · intro _
        trivial
    | some v =>
      simp only [hp]
      by_cases hv : v < 1970 ∨ 9999 < v
      · rw [if_pos hv]
        constructor
        · intro _
          exact Or.inr ⟨v, rfl, hv⟩
        · intro _
          rfl
      · rw [if_neg hv]
        constructor
        · intro hc
          cases hc
        · rintro (hc | ⟨w, hw, hrange⟩)
          · cases hc
          · cases hw
            omega
  · intro cy h1 h2 hp
    unfold validateYear
    have heff : effectiveYearString cy none = toString cy := rfl
    rw [heff]
    simp only [hp]
    rw [if_neg (by omega)]

/-- C8 witness: the success path at a parsed year and the default path at
the current year 2026. -/
theorem validateYear_spec_witness :
    validateYear 2026 (some (" 2025 ")) = .ok 2025 ∧ validateYear 2026 none = .ok 2026 :=
  ⟨validateYear_spec.1 2026 (some (" 2025 ")) 2025 (by decide) (by norm_num) (by norm_num),
   validateYear_spec.2.2.1 2026 (by norm_num) (by norm_num) (by decide)⟩

/-- C9 counterexample: a definition whose grade is present but out of the
table (grade 9) gets `grade_name` JS-`undefined`, which is neither the
Grade Table name (degrading to `"Unknown"` per the specification's table)
nor `null`. -/
theorem eventsGradeName_counterexample :
    evGradeNames (getLiturgicalEventsResult (.vobj [(("litcal_events"), .vobj
      [(("X"), .vobj [(("grade"), .vnum 9)])])]) ("general") none none none) =
      some [JSValue.vundefined] ∧
    ¬ JSValue.vundefined = JSValue.vstr (gradeTableName 9) ∧
    ¬ JSValue.vundefined = JSValue.vnull := by
  refine ⟨rfl, fun h => JSValue.noConfusion h, fun h => JSValue.noConfusion h⟩

/-- C9 (amended): in the `get_liturgical_events` normalizer, `grade_name`
is the Grade Table name when the grade is present with a table entry
(an integer 0..7), JS-`undefined` when the grade is present (including
`null`) but has no table entry, and `null` when the grade is absent; with
no grade filter the output records are exactly the mapped entries. -/
theorem eventsGradeName_amended :
    (∀ k v, getProp v ("grade") = .vundefined → (mkEventRecord k v).grade_name = .vnull) ∧
    (∀ k v n, getProp v ("grade") = .vnum n → 0 ≤ n → n ≤ 7 →
      (mkEventRecord k v).grade_name = .vstr (gradeTableName n)) ∧
    (∀ k v n, getProp v ("grade") = .vnum n → (n < 0 ∨ 7 < n) →
      (mkEventRecord k v).grade_name = .vundefined) ∧
    (∀ k v, getProp v ("grade") = .vnull → (mkEventRecord k v).grade_name = .vundefined) ∧
    (∀ data ct na di fields r,
      getProp data ("litcal_events") = .vobj fields →
      getLiturgicalEventsResult data ct na di none = .ok r →
      r.events = fields.map (fun kv => mkEventRecord kv.1 kv.2)) := by
  refine ⟨?_, ?_, ?_, ?_, ?_⟩
  · intro k v h
    simp only [mkEventRecord, h]
  · intro k v n h h0 h7
    have hn : n = 0 ∨ n = 1 ∨ n = 2 ∨ n = 3 ∨ n = 4 ∨ n = 5 ∨ n = 6 ∨ n = 7 := by omega
    rcases hn with rfl | rfl | rfl | rfl | rfl | rfl | rfl | rfl <;>
      simp [mkEventRecord, h, gradeMapLookup, GRADE_MAP, gradeTableName]
  · intro k v n h hout
    have hG : GRADE_MAP n = none := by
      unfold GRADE_MAP
      split <;> first | rfl | omega
    simp only [mkEventRecord, h, gradeMapLookup, hG]
  · intro k v h
    simp only [mkEventRecord, h, gradeMapLookup]
  · intro data ct na di fields r h hres
    unfold getLiturgicalEventsResult at hres
    rw [h] at hres
    rw [if_neg (by simp [truthy] : ¬ truthy (JSValue.vobj fields) = false)] at hres
    cases hres
    rfl

/-- C9 amended witness: the three `grade_name` forms at concrete
definitions. -/
theorem eventsGradeName_amended_witness :
    (mkEventRecord ("A") (.vobj [])).grade_name = .vnull ∧
    (mkEventRecord ("B") (.vobj [(("grade"), .vnum 3)])).grade_name =
      .vstr (gradeTableName 3) ∧
    (mkEventRecord ("C") (.vobj [(("grade"), .vnum 9)])).grade_name = .vundefined :=
  ⟨eventsGradeName_amended.1 ("A") (.vobj []) rfl,
   eventsGradeName_amended.2.1 ("B") (.vobj [(("grade"), .vnum 3)]) 3 rfl
     (by norm_num) (by norm_num),
   eventsGradeName_amended.2.2.1 ("C") (.vobj [(("grade"), .vnum 9)]) 9 rfl
     (by norm_num)⟩

/-- C10 counterexample: `toString` is not a registered tool name, yet
`handlers["toString"]` resolves through the prototype chain to the
inherited (truthy) `Object.prototype.toString`, so the dispatcher calls
it and replies with its result and `isError = !handlers[name] = false` --
refuting `isError = true` exactly for unknown names. -/
theorem dispatchProtoChain_counterexample :
    (dispatchTool ("toString") (fun _ => (""))).isError = false ∧
    (dispatchTool ("toString") (fun _ => (""))).text = .str ("[object Object]") ∧
    ¬ ("toString") ∈ knownToolNames :=
  ⟨rfl, rfl, by decide⟩

/-- C10 (amended): a reply for one of the five registered tool names
carries the handler's string with `isError = false` whatever the payload
says (error payloads included).  `isError = true` holds not exactly for
unknown names but exactly when the name is neither a registered tool nor
an inherited `Object.prototype` property, or is one of the three
inherited names whose call throws into the outer catch
(`__defineGetter__`, `__defineSetter__`, `__proto__`); the other nine
inherited names are unknown tools answered with `isError = false`. -/
theorem dispatchTool_isError_amended :
    (∀ name impl, name ∈ knownToolNames →
      (dispatchTool name impl).text = .str (impl name) ∧
      (dispatchTool name impl).isError = false) ∧
    (∀ name impl, (dispatchTool name impl).isError = true ↔
      ((¬ name ∈ knownToolNames ∧ ¬ name ∈ objectProtoProps) ∨
        name = ("__defineGetter__") ∨ name = ("__defineSetter__") ∨
        name = ("__proto__"))) ∧
    knownToolNames.length = 5 := by
  refine ⟨?_, ?_, rfl⟩
  · intro name impl hm
    unfold dispatchTool
    rw [if_pos (by simpa [List.elem_iff] using hm)]
    exact ⟨rfl, rfl⟩
  · intro name impl
    by_cases hk : knownToolNames.contains name = true
    · have hm : name ∈ knownToolNames := by simpa [List.elem_iff] using hk
      unfold dispatchTool
      rw [if_pos hk]
      show false = true ↔ _
      simp only [Bool.false_eq_true, false_iff]
      rintro (⟨hnk, _⟩ | h | h | h)
      · exact hnk hm
      · rw [h] at hm
        exact absurd hm (by decide)
      · rw [h] at hm
        exact absurd hm (by decide)
      · rw [h] at hm
        exact absurd hm (by decide)
    · by_cases hp : objectProtoProps.contains name = true
      · have hm : name ∈ objectProtoProps := by simpa [List.elem_iff] using hp
        unfold dispatchTool
        rw [if_neg hk, if_pos hp]
        have hm12 : name = ("constructor") ∨ name = ("hasOwnProperty") ∨
            name = ("isPrototypeOf") ∨ name = ("propertyIsEnumerable") ∨
            name = ("toLocaleString") ∨ name = ("toString") ∨
            name = ("valueOf") ∨ name = ("__defineGetter__") ∨
            name = ("__defineSetter__") ∨ name = ("__lookupGetter__") ∨
            name = ("__lookupSetter__") ∨ name = ("__proto__") := by
          simpa [objectProtoProps] using hm
        rcases hm12 with rfl | rfl | rfl | rfl | rfl | rfl | rfl | rfl | rfl |
          rfl | rfl | rfl <;> decide
      · have hnk : ¬ name ∈ knownToolNames := fun h =>
          hk (by simpa [List.elem_iff] using h)
        have hnp : ¬ name ∈ objectProtoProps := fun h =>
          hp (by simpa [List.elem_iff] using h)
        unfold dispatchTool
        rw [if_neg hk, if_neg hp]
        exact iff_of_true rfl (Or.inl ⟨hnk, hnp⟩)

/-- C10 witness: a known tool resolving with an error payload still reports
`isError = false`, and the characterization at that name. -/
theorem dispatchTool_isError_amended_witness :
    (dispatchTool ("get_general_calendar")
        (fun _ => ("\x7b\"error\":\"Year must be between 1970 and 9999\"\x7d"))).text =
      .str ("\x7b\"error\":\"Year must be between 1970 and 9999\"\x7d") ∧
    (dispatchTool ("get_general_calendar")
        (fun _ => ("\x7b\"error\":\"Year must be between 1970 and 9999\"\x7d"))).isError =
      false :=
  dispatchTool_isError_amended.1 ("get_general_calendar")
    (fun _ => ("\x7b\"error\":\"Year must be between 1970 and 9999\"\x7d")) (by decide)
